/-
  Verification of the prebid-server bidder-adapter runner and hook executor.

  Shallow embedding of:
    - src/exchange/bidder.go           (requestBid pipeline, debug traces, stored responses,
                                        currency conversion, bid adjustment, native enrichment)
    - src/hooks/hookexecution/executor.go  (stage executors' empty-plan short circuit)

  Modelling conventions:
    - Go float64 prices and rates are modelled as rationals: the claims under
      study are about which multiplications happen and which fields are kept,
      not about rounding.
    - Go byte slices are modelled as String.
    - Go maps are modelled as association lists; Go map zero-value reads
      (missing key gives false / zero) are modelled with getD.
    - External collaborators (the HTTP transport, JSON codecs, the X-Prebid
      header builder, the gzip compressor, the ads-cert signer, the currency
      converter, the adapter itself) are dependency-injected functions, exactly
      as they are interfaces in the source.
    - Concurrency: the response channel of requestBid delivers one httpCallInfo
      per dispatched call in a nondeterministic order; the model takes that
      arrival order as an explicit list parameter (`delivered`).
-/
import Mathlib

set_option linter.unusedVariables false

namespace Prebid

/-! ## HTTP headers (net/http.Header, net/textproto canonical keys) -/

/-- Valid header-field byte per net/textproto `validHeaderFieldByte`
    (RFC 7230 token characters). Apostrophe (39), caret (94), backtick (96),
    pipe (124) and tilde (126) are written by code point. -/
def validHeaderFieldChar (c : Char) : Bool :=
  (c ≥ 'a' && c ≤ 'z') || (c ≥ 'A' && c ≤ 'Z') || (c ≥ '0' && c ≤ '9') ||
  c = '!' || c = '#' || c = '$' || c = '%' || c = '&' || c.toNat = 39 ||
  c = '*' || c = '+' || c = '-' || c = '.' || c.toNat = 94 || c = '_' ||
  c.toNat = 96 || c.toNat = 124 || c.toNat = 126

/-- Character-wise canonicalization pass of net/textproto
    `canonicalMIMEHeaderKey`: uppercase at the start and after each hyphen,
    lowercase elsewhere. -/
def canonChars : Bool → List Char → List Char
  | _, [] => []
  | upper, c :: rest =>
    let c' := if upper then c.toUpper else c.toLower
    c' :: canonChars (c' = '-') rest

/-- net/http `CanonicalHeaderKey`: returns the key unchanged when it holds an
    invalid byte, otherwise canonicalizes the case of each character. -/
def canonicalHeaderKey (s : String) : String :=
  if s.data.all validHeaderFieldChar then { data := canonChars true s.data } else s

/-- net/http.Header: a map from canonical keys to value lists, modelled as an
    association list (insertion ordered). -/
def Header : Type := List (String × List String)

instance : DecidableEq Header := by unfold Header; infer_instance
instance : Repr Header := by unfold Header; infer_instance

/-- Append a value under the (already canonical) key, creating the entry at the
    end when absent (textproto MIMEHeader.Add after key canonicalization). -/
def addEntry : List (String × List String) → String → String → List (String × List String)
  | [], k, v => [(k, [v])]
  | (k0, vs) :: rest, k, v =>
    if k0 = k then (k0, vs ++ [v]) :: rest else (k0, vs) :: addEntry rest k v

/-- Replace the value list under the (already canonical) key with a singleton
    (textproto MIMEHeader.Set after key canonicalization). -/
def setEntry : List (String × List String) → String → String → List (String × List String)
  | [], k, v => [(k, [v])]
  | (k0, vs) :: rest, k, v =>
    if k0 = k then (k0, [v]) :: rest else (k0, vs) :: setEntry rest k v

def Header.add (h : Header) (k v : String) : Header :=
  addEntry h (canonicalHeaderKey k) v

def Header.set (h : Header) (k v : String) : Header :=
  setEntry h (canonicalHeaderKey k) v

/-- textproto MIMEHeader.Del: removes the entry stored under the canonical
    form of the key. -/
def Header.del (h : Header) (k : String) : Header :=
  List.filter (fun p => p.1 ≠ canonicalHeaderKey k) h

/-- First value list stored under an (already canonical) key. -/
def valuesEntry : List (String × List String) → String → List String
  | [], _ => []
  | p :: rest, k => if p.1 = k then p.2 else valuesEntry rest k

/-- http.Header.Values: value list under the canonical key, empty when absent. -/
def Header.values (h : Header) (k : String) : List String :=
  valuesEntry h (canonicalHeaderKey k)

/-! ## Error model (errortypes) -/

/-- Modelled from the spec: hookexecution.RejectError (its definition lives
    outside src/); the reject signal carries the stage name and a reason. -/
structure RejectError where
  stage : String
  reason : String
deriving DecidableEq, Repr

/-- errortypes warning codes used by src/exchange/bidder.go.
    `zeroCode` stands for a Warning created without an explicit code. -/
inductive WarningCode where
  | zeroCode
  | bidderLevelDebugDisabled
  | alternateBidderCode
deriving DecidableEq, Repr

/-- The error values src/exchange/bidder.go creates or passes along.
    `generic` stands for any other Go error (wrapped library errors etc.). -/
inductive BidderError where
  | failedToRequestBids (msg : String)
  | warning (code : WarningCode) (msg : String)
  | timeout (msg : String)
  | badServerResponse (msg : String)
  | rejectError (r : RejectError)
  | conversion (msg : String)
  | generic (msg : String)
deriving DecidableEq, Repr

/-! ## Outbound call data (adapters.RequestData / ResponseData, httpCallInfo) -/

structure RequestData where
  method : String
  uri : String
  body : String
  headers : Header
deriving DecidableEq, Repr

structure ResponseData where
  statusCode : Int
  body : String
  headers : Header
deriving DecidableEq, Repr

structure HttpCallInfo where
  request : Option RequestData
  response : Option ResponseData
  err : Option BidderError
deriving DecidableEq, Repr

/-- openrtb_ext.ExtHttpCall: the emitted http-call debug record. Zero values
    mirror the Go zero struct (empty strings, nil header map, status 0). -/
structure ExtHttpCall where
  uri : String := ""
  requestBody : String := ""
  requestHeaders : Option Header := none
  responseBody : String := ""
  status : Int := 0
deriving DecidableEq, Repr

/-- src/exchange/bidder.go: `authorizationHeader = http.CanonicalHeaderKey("authorization")`. -/
def authorizationHeader : String := canonicalHeaderKey "authorization"

/-- src/exchange/bidder.go filterHeader: clone the headers and delete the
    Authorization entry (cloning is the identity in the pure model). -/
def filterHeader (h : Header) : Header :=
  Header.del h authorizationHeader

/-- src/exchange/bidder.go makeExt: transform an httpCallInfo into the debug
    record. Request fields are copied whenever a request exists; response body
    and status are copied only when the call has no error and a response exists. -/
def makeExt (httpInfo : HttpCallInfo) : ExtHttpCall :=
  match httpInfo.request with
  | none => {}
  | some req =>
    let base : ExtHttpCall :=
      { uri := req.uri, requestBody := req.body,
        requestHeaders := some (filterHeader req.headers) }
    match httpInfo.err, httpInfo.response with
    | none, some resp => { base with responseBody := resp.body, status := resp.statusCode }
    | _, _ => base

/-! ## Stored-response sentinel -/

/-- src/exchange/bidder.go: `ImpIdReqBody = "Stored bid response for impression id: "`. -/
def ImpIdReqBody : String := "Stored bid response for impression id: "

/-- src/exchange/bidder.go prepareStoredResponse: a synthetic httpCallInfo for
    one stored bid response; POST, empty URI, the sentinel body carrying the
    impression id, a 200 response holding the stored bytes, no error. -/
def prepareStoredResponse (impId : String) (bidResp : String) : HttpCallInfo :=
  { request := some { method := "POST", uri := "", body := ImpIdReqBody ++ impId, headers := [] },
    response := some { statusCode := 200, body := bidResp, headers := [] },
    err := none }

/-- Split a character list on each non-overlapping leftmost occurrence of
    `sep`, accumulator-style; models Go `regexp.Split(s, -1)` for the literal
    (metacharacter-free) sentinel pattern. An empty `sep` never splits. -/
def splitOnList (sep : List Char) : List Char → List Char → List (List Char)
  | acc, [] => [acc.reverse]
  | acc, c :: rest =>
    if h : sep.isPrefixOf (c :: rest) && !sep.isEmpty then
      acc.reverse :: splitOnList sep [] ((c :: rest).drop sep.length)
    else
      splitOnList sep (c :: acc) rest
termination_by acc l => l.length
decreasing_by
  · simp only [Bool.and_eq_true, Bool.not_eq_true', List.isEmpty_eq_false_iff_exists_mem] at h
    have hsep : 0 < sep.length := by
      rcases h with ⟨-, h2⟩
      cases sep with
      | nil => simp at h2
      | cons a t => simp
    simp only [List.length_drop, List.length_cons]
    omega
  · simp

/-- Left-to-right occurrence test: does `sep` occur as a contiguous
    subsequence of `l`? -/
def containsSeq (sep : List Char) : List Char → Bool
  | [] => sep.isEmpty
  | c :: rest => sep.isPrefixOf (c :: rest) || containsSeq sep rest

/-- String wrapper for `splitOnList`. -/
def splitOnStr (sep s : String) : List String :=
  (splitOnList sep.data [] s.data).map (fun l => { data := l })

/-- The impression id the runner recovers from a stored-response request body:
    element 1 of the body split on the sentinel (the Go code indexes the split
    result at 1 and would panic when the sentinel is absent; the model returns
    "" there). -/
def storedImpIdOf (reqBody : String) : String :=
  ((splitOnStr ImpIdReqBody reqBody).getD 1 "")

/-! ## Bid data model (openrtb2 / openrtb_ext / adapters, the fields bidder.go touches) -/

inductive BidType where
  | banner
  | video
  | audio
  | native
deriving DecidableEq, Repr

/-- The subset of openrtb2.Bid the runner reads or writes. -/
structure Bid where
  id : String
  impID : String
  price : ℚ
  adm : String
deriving DecidableEq, Repr

/-- The subset of openrtb_ext.ExtBidPrebidMeta the runner writes. -/
structure ExtBidPrebidMeta where
  adapterCode : String := ""
deriving DecidableEq, Repr

/-- adapters.TypedBid: the adapter-parsed bid plus its metadata. `bidVideo`
    is opaque pass-through payload. -/
structure TypedBid where
  bid : Option Bid
  bidMeta : Option ExtBidPrebidMeta
  bidType : BidType
  bidVideo : Option String
  dealPriority : Int
  seat : String
deriving DecidableEq, Repr

/-- adapters.BidderResponse. -/
structure BidderResponse where
  currency : String
  bids : List TypedBid
deriving DecidableEq, Repr

/-- exchange.pbsOrtbBid (the fields requestBid fills; the remaining fields are
    zero here and set later by the exchange). -/
structure pbsOrtbBid where
  bid : Option Bid
  bidMeta : Option ExtBidPrebidMeta
  bidType : BidType
  bidVideo : Option String
  dealPriority : Int
  originalBidCPM : ℚ
  originalBidCur : String
deriving DecidableEq, Repr

/-- exchange.pbsOrtbSeatBid. -/
structure pbsOrtbSeatBid where
  bids : List pbsOrtbBid
  currency : String
  httpCalls : List ExtHttpCall
  seat : String
deriving DecidableEq, Repr

/-- openrtb2.Native: only the raw native request payload is read. -/
structure NativeImp where
  request : String
deriving DecidableEq, Repr

/-- The subset of openrtb2.Imp the runner reads. -/
structure Imp where
  id : String
  native : Option NativeImp
deriving DecidableEq, Repr

/-- The subset of openrtb2.BidRequest the runner reads or writes.
    `app` only matters through its presence (the source checks `App != nil`). -/
structure BidRequest where
  imp : List Imp
  cur : List String
  app : Option Unit
deriving DecidableEq, Repr

/-- exchange.BidderRequest: the per-bidder request bundle (fields requestBid
    uses). Maps are association lists; a missing ImpReplaceImpId key reads as
    false like a Go map. -/
structure BidderRequest where
  bidRequest : BidRequest
  bidderName : String
  bidderStoredResponses : List (String × String)
  impReplaceImpId : List (String × Bool)

/-! ## Native markup enrichment (native1 request/response, the fields touched) -/

structure NativeImg where
  imgType : Int
deriving DecidableEq, Repr

structure NativeData where
  dataType : Int
deriving DecidableEq, Repr

/-- nativeResponse.Asset: ID pointer, optional image and data sub-assets. -/
structure NativeRespAsset where
  id : Option Int
  img : Option NativeImg
  dataAsset : Option NativeData
deriving DecidableEq, Repr

/-- nativeResponse.Response (assets only). -/
structure NativeMarkup where
  assets : List NativeRespAsset
deriving DecidableEq, Repr

/-- nativeRequests.Asset. -/
structure NativeReqAsset where
  id : Int
  img : Option NativeImg
  dataAsset : Option NativeData
deriving DecidableEq, Repr

/-- nativeRequests.Request (assets only). -/
structure NativePayload where
  assets : List NativeReqAsset
deriving DecidableEq, Repr

/-- src/exchange/bidder.go getAssetByID: first request asset with the id. -/
def getAssetByID (id : Int) (assets : List NativeReqAsset) : Except BidderError NativeReqAsset :=
  match assets.find? (fun a => a.id = id) with
  | some a => Except.ok a
  | none => Except.error (.generic ("Unable to find asset with ID:" ++ toString id ++ " in the request"))

/-- src/exchange/bidder.go getNativeImpByImpID: first impression with this id
    that carries a native payload. -/
def getNativeImpByImpID (impID : String) (request : BidRequest) : Except BidderError NativeImp :=
  match request.imp.find? (fun i => i.id = impID && i.native.isSome) with
  | some i =>
    match i.native with
    | some n => Except.ok n
    | none => Except.error (.generic "Could not find native imp")
  | none => Except.error (.generic "Could not find native imp")

/-- src/exchange/bidder.go setAssetTypes: copy the request asset's image/data
    type onto the response asset (matched by asset id) when non-zero. Errors
    abort the remaining part of this asset but keep updates already made
    (the Go code mutates through pointers and returns early on error). -/
def setAssetTypes (asset : NativeRespAsset) (payload : NativePayload) : NativeRespAsset × Option BidderError :=
  let afterImg : NativeRespAsset × Option BidderError :=
    match asset.img with
    | none => (asset, none)
    | some img =>
      match asset.id with
      | none => (asset, some (.generic "Response Image asset doesn't have an ID"))
      | some aid =>
        match getAssetByID aid payload.assets with
        | Except.error e => (asset, some e)
        | Except.ok tempAsset =>
          match tempAsset.img with
          | none =>
            (asset, some (.generic ("Response has an Image asset with ID:" ++ toString aid ++
              " present that doesn't exist in the request")))
          | some timg =>
            if timg.imgType ≠ 0 then
              ({ asset with img := some { img with imgType := timg.imgType } }, none)
            else (asset, none)
  match afterImg with
  | (a, some e) => (a, some e)
  | (a, none) =>
    match a.dataAsset with
    | none => (a, none)
    | some d =>
      match a.id with
      | none => (a, some (.generic "Response Data asset doesn't have an ID"))
      | some aid =>
        match getAssetByID aid payload.assets with
        | Except.error e => (a, some e)
        | Except.ok tempAsset =>
          match tempAsset.dataAsset with
          | none =>
            (a, some (.generic ("Response has a Data asset with ID:" ++ toString aid ++
              " present that doesn't exist in the request")))
          | some td =>
            if td.dataType ≠ 0 then
              ({ a with dataAsset := some { d with dataType := td.dataType } }, none)
            else (a, none)

/-! ## External collaborators (dependency-injected, as in the source) -/

/-- Outcome of one physical HTTP round trip (ctxhttp.Do plus body read),
    abstracting the network. -/
inductive TransportResult where
  | netErr (deadlineExceeded : Bool) (msg : String)
  | readErr (statusCode : Int) (headers : Header) (msg : String)
  | ok (statusCode : Int) (body : String) (headers : Header)
deriving Repr

/-- The external collaborators bidder.go calls: JSON codecs, version header
    builder, gzip, http.NewRequest validation and the network transport. -/
structure Env where
  buildXPrebidHeader : BidRequest → String
  signHeader : String
  gzipCompress : String → String
  newRequestErr : String → String → Option String
  transport : RequestData → TransportResult
  unmarshalNativeMarkup : String → Option NativeMarkup
  unmarshalNativeRequest : String → Except String NativePayload
  marshalNativeMarkup : NativeMarkup → Except String String

/-- src/exchange/bidder.go addNativeTypes: parse the ad markup; on parse
    failure or empty asset list skip silently; find the impression's native
    request; a request-payload parse failure is recorded but processing
    continues with the zero payload; then fix up each asset's types. -/
def addNativeTypes (env : Env) (bid : Bid) (request : BidRequest) :
    Option NativeMarkup × List BidderError :=
  match env.unmarshalNativeMarkup bid.adm with
  | none => (none, [])
  | some markup =>
    if markup.assets.length = 0 then (none, [])
    else
      match getNativeImpByImpID bid.impID request with
      | Except.error e => (none, [e])
      | Except.ok imp =>
        let pp : NativePayload × List BidderError :=
          match env.unmarshalNativeRequest imp.request with
          | Except.error e => ({ assets := [] }, [.generic e])
          | Except.ok p => (p, [])
        let step := markup.assets.foldl (fun acc asset =>
          let r := setAssetTypes asset pp.1
          (acc.1 ++ [r.1], match r.2 with | some e => acc.2 ++ [e] | none => acc.2))
          (([] : List NativeRespAsset), ([] : List BidderError))
        (some { markup with assets := step.1 }, pp.2 ++ step.2)

/-- The per-native-bid part of requestBid's App branch (bidder.go lines
    296-310): enrich the markup and re-marshal it into the bid's AdM.
    A nil bid is left untouched (the source would fault there). -/
def enrichNativeBid (env : Env) (request : BidRequest) (tb : TypedBid) :
    TypedBid × List BidderError :=
  if tb.bidType = BidType.native then
    match tb.bid with
    | none => (tb, [])
    | some b =>
      let r := addNativeTypes env b request
      match r.1 with
      | none => (tb, r.2)
      | some m =>
        match env.marshalNativeMarkup m with
        | Except.error e => (tb, r.2 ++ [.generic e])
        | Except.ok s => ({ tb with bid := some { b with adm := s } }, r.2)
  else (tb, [])

/-- requestBid's App branch over the whole bid list, accumulating errors in
    bid order. -/
def enrichNativeBids (env : Env) (request : BidRequest) (bids : List TypedBid) :
    List TypedBid × List BidderError :=
  bids.foldl (fun acc tb =>
    let r := enrichNativeBid env request tb
    (acc.1 ++ [r.1], acc.2 ++ r.2))
    (([] : List TypedBid), ([] : List BidderError))

/-! ## doRequest (the physical call path) -/

/-- The parts of exchange.bidderAdapterConfig the pure pipeline reads. -/
structure BidderAdapterConfig where
  debugInfoAllow : Bool
  endpointCompression : String
deriving DecidableEq, Repr

/-- strings.ToUpper, modelled character-wise. -/
def toUpperStr (s : String) : String :=
  { data := s.data.map Char.toUpper }

/-- src/exchange/bidder.go doRequestImpl: optionally gzip the outbound body
    (mutating the stored headers but not the stored body), run the transport,
    map a deadline error to a Timeout, and mark any status outside
    [200,400) as BadServerResponse while keeping the response data.
    The asynchronous timeout notification is a metrics/logging side effect
    with no influence on the returned httpCallInfo, so it has no counterpart
    here. -/
def doRequestImpl (env : Env) (cfg : BidderAdapterConfig) (req0 : RequestData) : HttpCallInfo :=
  let isGzip := toUpperStr cfg.endpointCompression = "GZIP"
  let req := if isGzip then { req0 with headers := req0.headers.set "Content-Encoding" "gzip" } else req0
  let sentBody := if isGzip then env.gzipCompress req.body else req.body
  match env.newRequestErr req.method req.uri with
  | some e => { request := some req, response := none, err := some (.generic e) }
  | none =>
    match env.transport { req with body := sentBody } with
    | TransportResult.netErr dl msg =>
      { request := some req, response := none,
        err := some (if dl then .timeout msg else .generic msg) }
    | TransportResult.readErr _ _ msg =>
      { request := some req, response := none, err := some (.generic msg) }
    | TransportResult.ok status body hdrs =>
      { request := some req,
        response := some { statusCode := status, body := body, headers := hdrs },
        err :=
          if status < 200 ∨ status ≥ 400 then
            some (.badServerResponse ("Server responded with failure status: " ++ toString status ++
              ". Set request.test = 1 for debugging info."))
          else none }

/-! ## The requestBid pipeline -/

/-- currency.Conversions.GetRate as injected into requestBid. -/
def Conversions : Type := String → String → Except BidderError ℚ

/-- adapters.Bidder: the adapter contract requestBid consumes. -/
structure Bidder where
  makeRequests : BidRequest → String → List RequestData × List BidderError
  makeBids : BidRequest → Option RequestData → Option ResponseData → Option BidderResponse × List BidderError

/-- exchange.bidRequestOptions. -/
structure BidRequestOptions where
  accountDebugAllowed : Bool
  headerDebugAllowed : Bool
  addCallSignHeader : Bool
  bidAdjustments : List (String × ℚ)

/-- Everything requestBid receives besides the BidderRequest itself:
    the adapter, its config, and all injected collaborators.
    `reqInfoGpc` is adapters.ExtraRequestInfo.GlobalPrivacyControlHeader,
    `signer` is the ads-cert signer, `alternateBidderCodes` is
    openrtb_ext.ExtAlternateBidderCodes.IsValidBidderCode (defined outside
    src/, hence abstract), and `hookExec` is
    hookExecutor.ExecuteBidderRequestStage's observable result. -/
structure RunnerDeps where
  env : Env
  bidder : Bidder
  cfg : BidderAdapterConfig
  conversions : Conversions
  reqInfoGpc : String
  signer : String → String → Except String String
  opts : BidRequestOptions
  alternateBidderCodes : String → String → Bool × Option String
  hookExec : BidRequest → String → Option RejectError

/-- The per-call context threaded through the response loop. -/
structure RunnerCtx where
  env : Env
  bidder : Bidder
  cfg : BidderAdapterConfig
  opts : BidRequestOptions
  conversions : Conversions
  alternateBidderCodes : String → String → Bool × Option String
  bidderName : String
  bidderStoredResponses : List (String × String)
  impReplaceImpId : List (String × Bool)

/-- Mutable state of requestBid's response loop: the (shared, possibly
    mutated) bid request, the seat-bid map and the error list. -/
structure LoopState where
  bidRequest : BidRequest
  seatBidMap : List (String × pbsOrtbSeatBid)
  errs : List BidderError

/-- First entry of the seat map under this seat name. -/
def lookupSeat : List (String × pbsOrtbSeatBid) → String → Option pbsOrtbSeatBid
  | [], _ => none
  | p :: rest, s => if p.1 = s then some p.2 else lookupSeat rest s

/-- Rewrite the entry stored under this seat name. -/
def updateSeat (m : List (String × pbsOrtbSeatBid)) (s : String)
    (f : pbsOrtbSeatBid → pbsOrtbSeatBid) : List (String × pbsOrtbSeatBid) :=
  m.map (fun p => if p.1 = s then (p.1, f p.2) else p)

/-- The bid list recorded under a seat (empty when the seat is absent). -/
def seatBids (m : List (String × pbsOrtbSeatBid)) (s : String) : List pbsOrtbBid :=
  ((lookupSeat m s).map (fun sb => sb.bids)).getD []

/-- The http-call debug records recorded under a seat. -/
def seatHttpCalls (m : List (String × pbsOrtbSeatBid)) (s : String) : List ExtHttpCall :=
  ((lookupSeat m s).map (fun sb => sb.httpCalls)).getD []

/-- bidder.go line 234: `defaultCurrency := "USD"`. -/
def defaultCurrency : String := "USD"

/-- bidder.go lines 337-340: the seat a bid claims — its alternate seat when
    set, otherwise the primary bidder name. -/
def claimedSeatOf (primary : String) (tb : TypedBid) : String :=
  if tb.seat ≠ "" then tb.seat else primary

/-- Go map read on the bid-adjustments map. -/
def lookupAdj : List (String × ℚ) → String → Option ℚ
  | [], _ => none
  | p :: rest, k => if p.1 = k then some p.2 else lookupAdj rest k

/-- bidder.go lines 353-358: the adjustment factor — the bid-adjustments entry
    for the claimed seat when present, else the entry for the primary bidder,
    else 1.0. -/
def adjustmentFactorOf (bidAdjustments : List (String × ℚ)) (primary claimed : String) : ℚ :=
  match lookupAdj bidAdjustments claimed with
  | some a => a
  | none =>
    match lookupAdj bidAdjustments primary with
    | some a => a
    | none => 1

/-- Context of the per-bid loop at bidder.go lines 331-386. -/
structure BidLoopCtx where
  primary : String
  bidAdjustments : List (String × ℚ)
  isValidBidderCode : String → String → Bool × Option String
  conversionRate : ℚ
  respCurrency : String

/-- bidder.go lines 331-386, one iteration: stamp the meta adapter code,
    validate the claimed seat (dropping the bid, with a warning when the
    validator gave an error), adjust and convert the price, create the claimed
    seat's map entry when missing (currency USD, sharing the primary seat's
    debug records), and append the normalized bid. -/
def processBid (ctx : BidLoopCtx) (st : LoopState) (tb : TypedBid) : LoopState :=
  let meta : ExtBidPrebidMeta := { tb.bidMeta.getD {} with adapterCode := ctx.primary }
  let bidderName := claimedSeatOf ctx.primary tb
  let vres := ctx.isValidBidderCode ctx.primary bidderName
  if vres.1 then
    let adjustmentFactor := adjustmentFactorOf ctx.bidAdjustments ctx.primary bidderName
    let originalBidCpm : ℚ := match tb.bid with | some b => b.price | none => 0
    let bid' : Option Bid :=
      match tb.bid with
      | some b => some { b with price := b.price * adjustmentFactor * ctx.conversionRate }
      | none => none
    let freshSeat : pbsOrtbSeatBid :=
      { bids := [], currency := defaultCurrency,
        httpCalls := ((lookupSeat st.seatBidMap ctx.primary).map (fun sb => sb.httpCalls)).getD [],
        seat := bidderName }
    let st1 : LoopState :=
      match lookupSeat st.seatBidMap bidderName with
      | some _ => st
      | none => { st with seatBidMap := st.seatBidMap ++ [(bidderName, freshSeat)] }
    let newBid : pbsOrtbBid :=
      { bid := bid', bidMeta := some meta, bidType := tb.bidType,
        bidVideo := tb.bidVideo, dealPriority := tb.dealPriority,
        originalBidCPM := originalBidCpm, originalBidCur := ctx.respCurrency }
    let m2 := updateSeat st1.seatBidMap bidderName (fun sb => { sb with bids := sb.bids ++ [newBid] })
    { st1 with seatBidMap := m2 }
  else
    match vres.2 with
    | some msg => { st with errs := st.errs ++ [.warning .alternateBidderCode msg] }
    | none => st

/-- bidder.go lines 246-267: per received call result, append the debug record
    when the debug-override header allows it, or when both the account and the
    bidder adapter allow debug; when the account allows debug but the adapter
    does not (and there is no header override), emit the
    BidderLevelDebugDisabled warning instead. -/
def debugGate (ctx : RunnerCtx) (st : LoopState) (info : HttpCallInfo) : LoopState :=
  let recorded := updateSeat st.seatBidMap ctx.bidderName
    (fun sb => { sb with httpCalls := sb.httpCalls ++ [makeExt info] })
  if ctx.opts.headerDebugAllowed then
    { st with seatBidMap := recorded }
  else if ctx.opts.accountDebugAllowed then
    if ctx.cfg.debugInfoAllow then
      { st with seatBidMap := recorded }
    else
      { st with errs := st.errs ++
          [BidderError.warning WarningCode.bidderLevelDebugDisabled "debug turned off for bidder"] }
  else st

/-- bidder.go lines 274-277: an empty response currency reads as USD. -/
def normalizeResponseCurrency (resp : BidderResponse) : BidderResponse :=
  if resp.currency = "" then { resp with currency := defaultCurrency } else resp

/-- bidder.go lines 278-280: an empty request currency list becomes ["USD"]
    (mutating the shared bid request). -/
def normalizeRequestCur (br : BidRequest) : BidRequest :=
  if br.cur = [] then { br with cur := [defaultCurrency] } else br

/-- bidder.go lines 285-292: scan the request currencies in order; the first
    one with a conversion rate wins (error none, its rate, adopted currency);
    when every lookup fails, keep the last error (rate unused, no adoption);
    an empty list leaves the zero-value rate and nil error of the Go locals. -/
def tryCurrencies (conv : Conversions) (respCur : String) :
    List String → Option BidderError × ℚ × Option String
  | [] => (none, 0, none)
  | c :: rest =>
    match conv respCur c with
    | Except.ok r => (none, r, some c)
    | Except.error e =>
      match rest with
      | [] => (some e, 0, none)
      | _ :: _ => tryCurrencies conv respCur rest

/-- Go map read on the replaceimpid map (missing key reads false). -/
def lookupBool : List (String × Bool) → String → Bool
  | [], _ => false
  | p :: rest, k => if p.1 = k then p.2 else lookupBool rest k

/-- bidder.go lines 315-326, one bid: when the call's request URI is empty,
    recover the impression id from the sentinel body and substitute it as the
    bid's ImpID when the replaceimpid flag for it is true. A nil bid is left
    untouched (the source would fault there). -/
def replaceOneImpId (impReplace : List (String × Bool)) (info : HttpCallInfo) (tb : TypedBid) :
    TypedBid :=
  match info.request with
  | some rq =>
    if rq.uri = "" then
      let reqImpId := storedImpIdOf rq.body
      if lookupBool impReplace reqImpId then
        match tb.bid with
        | some b => { tb with bid := some { b with impID := reqImpId } }
        | none => tb
      else tb
    else tb
  | none => tb

/-- bidder.go lines 313-327: the stored-response ImpID substitution, applied
    only when stored responses are present for this bidder. -/
def replaceStoredImpIds (storedPresent : Bool) (impReplace : List (String × Bool))
    (info : HttpCallInfo) (bids : List TypedBid) : List TypedBid :=
  if storedPresent then bids.map (replaceOneImpId impReplace info) else bids

/-- bidder.go lines 273-391: handle one non-nil adapter bid response —
    normalize currencies, pick a conversion rate, adopt the seat currency,
    enrich native bids for app requests, substitute stored impression ids,
    then either price and collect every bid (rate found) or drop the whole
    response and append the conversion error. -/
def processBidderResponse (ctx : RunnerCtx) (st0 : LoopState) (info : HttpCallInfo)
    (resp0 : BidderResponse) : LoopState :=
  let resp := normalizeResponseCurrency resp0
  let st1 := { st0 with bidRequest := normalizeRequestCur st0.bidRequest }
  let conv := tryCurrencies ctx.conversions resp.currency st1.bidRequest.cur
  let st2 : LoopState :=
    match conv.2.2 with
    | some c =>
      let m := updateSeat st1.seatBidMap ctx.bidderName (fun sb => { sb with currency := c })
      { st1 with seatBidMap := m }
    | none => st1
  let enr :=
    if st2.bidRequest.app.isSome then enrichNativeBids ctx.env st2.bidRequest resp.bids
    else (resp.bids, [])
  let st3 := { st2 with errs := st2.errs ++ enr.2 }
  let bids2 := replaceStoredImpIds (!ctx.bidderStoredResponses.isEmpty) ctx.impReplaceImpId info enr.1
  match conv.1 with
  | none =>
    bids2.foldl
      (processBid
        { primary := ctx.bidderName, bidAdjustments := ctx.opts.bidAdjustments,
          isValidBidderCode := ctx.alternateBidderCodes,
          conversionRate := conv.2.1, respCurrency := resp.currency }) st3
  | some e => { st3 with errs := st3.errs ++ [e] }

/-- bidder.go lines 246-395, one iteration of the drain loop: gate the debug
    record, then either record the call error or let the adapter parse the
    response and process it. -/
def processHttpCallResult (ctx : RunnerCtx) (st0 : LoopState) (info : HttpCallInfo) : LoopState :=
  let st1 := debugGate ctx st0 info
  match info.err with
  | some e => { st1 with errs := st1.errs ++ [e] }
  | none =>
    let mb := ctx.bidder.makeBids st1.bidRequest info.request info.response
    let st2 := { st1 with errs := st1.errs ++ mb.2 }
    match mb.1 with
    | none => st2
    | some resp0 => processBidderResponse ctx st2 info resp0

/-- The native-enrichment step of processBidderResponse as a function of the
    incoming state (extraction used by the currency lemmas; the App branch
    runs on the currency-normalized bid request). -/
def respEnr (ctx : RunnerCtx) (st2 : LoopState) (resp : BidderResponse) :
    List TypedBid × List BidderError :=
  if (normalizeRequestCur st2.bidRequest).app.isSome then
    enrichNativeBids ctx.env (normalizeRequestCur st2.bidRequest)
      (normalizeResponseCurrency resp).bids
  else ((normalizeResponseCurrency resp).bids, [])

/-- The state processBidderResponse reaches when the currency scan adopts
    currency `c` with rate `r` (extraction used by the currency lemmas). -/
def foundState (ctx : RunnerCtx) (st2 : LoopState) (info : HttpCallInfo) (resp : BidderResponse)
    (c : String) (r : ℚ) : LoopState :=
  List.foldl
    (processBid
      { primary := ctx.bidderName, bidAdjustments := ctx.opts.bidAdjustments,
        isValidBidderCode := ctx.alternateBidderCodes,
        conversionRate := r, respCurrency := (normalizeResponseCurrency resp).currency })
    { bidRequest := normalizeRequestCur st2.bidRequest,
      seatBidMap := updateSeat st2.seatBidMap ctx.bidderName (fun sb => { sb with currency := c }),
      errs := st2.errs ++ (respEnr ctx st2 resp).2 }
    (replaceStoredImpIds (!ctx.bidderStoredResponses.isEmpty) ctx.impReplaceImpId info
      (respEnr ctx st2 resp).1)

/-- The state processBidderResponse reaches when no request currency has a
    conversion rate and the whole response is dropped with error `e`
    (extraction used by the currency lemmas). -/
def dropState (ctx : RunnerCtx) (st2 : LoopState) (resp : BidderResponse) (e : BidderError) :
    LoopState :=
  { bidRequest := normalizeRequestCur st2.bidRequest,
    seatBidMap := st2.seatBidMap,
    errs := (st2.errs ++ (respEnr ctx st2 resp).2) ++ [e] }

/-- bidder.go lines 180-206: per outbound request, clone the headers, add the
    X-Prebid header, forward the GPC signal when set, and (when configured)
    sign the call — a signing failure appends a plain warning, a non-empty
    signature adds the ads-cert header. -/
def addOutboundHeaders (d : RunnerDeps) (bidRequest : BidRequest)
    (reqData : List RequestData) (errs : List BidderError) :
    List RequestData × List BidderError :=
  let xp := d.env.buildXPrebidHeader bidRequest
  reqData.foldl (fun acc rd =>
    let hs := rd.headers
    let hs := hs.add "X-Prebid" xp
    let hs := if d.reqInfoGpc = "1" then hs.add "Sec-GPC" d.reqInfoGpc else hs
    let step : Header × List BidderError :=
      if d.opts.addCallSignHeader then
        match d.signer rd.uri rd.body with
        | Except.error e =>
          (hs, [.warning .zeroCode ("AdsCert signer is enabled but cannot sign the request: " ++ e)])
        | Except.ok sig =>
          (if sig.length > 0 then hs.add d.env.signHeader sig else hs, [])
      else (hs, [])
    (acc.1 ++ [{ rd with headers := step.1 }], acc.2 ++ step.2))
    (([] : List RequestData), errs)

def mkRunnerCtx (d : RunnerDeps) (br : BidderRequest) : RunnerCtx :=
  { env := d.env, bidder := d.bidder, cfg := d.cfg, opts := d.opts,
    conversions := d.conversions, alternateBidderCodes := d.alternateBidderCodes,
    bidderName := br.bidderName, bidderStoredResponses := br.bidderStoredResponses,
    impReplaceImpId := br.impReplaceImpId }

/-- bidder.go lines 234-242: the seat map starts with one entry for the
    primary bidder — no bids, currency USD, no debug records. -/
def initialLoopState (br : BidderRequest) (errs : List BidderError) : LoopState :=
  { bidRequest := br.bidRequest,
    seatBidMap := [(br.bidderName,
      { bids := [], currency := defaultCurrency, httpCalls := [], seat := br.bidderName })],
    errs := errs }

/-- bidder.go lines 244-402: drain the response channel (`delivered` is the
    arrival order of the dispatched calls' results) and assemble the seat-bid
    list from the seat map. -/
def runResponseLoop (d : RunnerDeps) (br : BidderRequest) (errs : List BidderError)
    (delivered : List HttpCallInfo) : List pbsOrtbSeatBid × List BidderError :=
  let stF := delivered.foldl (processHttpCallResult (mkRunnerCtx d br)) (initialLoopState br errs)
  (stF.seatBidMap.map (fun p => p.2), stF.errs)

/-- bidder.go line 176: the error synthesized when the adapter produced
    neither requests nor errors. -/
def failedToRequestBidsMsg : String :=
  "The adapter failed to generate any bid requests, but also failed to generate an error explaining why"

/-- src/exchange/bidder.go requestBid. The BidderRequestStage reject check
    happens first and short-circuits everything. With impressions present,
    the adapter builds the outbound requests (zero requests returns early:
    the adapter's errors, or a synthesized FailedToRequestBids error when it
    gave none). Requests are dispatched concurrently together with one
    synthetic call per stored response; `delivered` is the channel arrival
    order of those calls' results — a permutation of
    `dispatchedCalls d br`. -/
def requestBid (d : RunnerDeps) (br : BidderRequest) (delivered : List HttpCallInfo) :
    List pbsOrtbSeatBid × List BidderError :=
  match d.hookExec br.bidRequest br.bidderName with
  | some reject => ([], [.rejectError reject])
  | none =>
    if br.bidRequest.imp.isEmpty then
      runResponseLoop d br [] delivered
    else
      let mk := d.bidder.makeRequests br.bidRequest d.reqInfoGpc
      if mk.1.isEmpty then
        ([], if mk.2.isEmpty then [.failedToRequestBids failedToRequestBidsMsg] else mk.2)
      else
        let prepared := addOutboundHeaders d br.bidRequest mk.1 mk.2
        runResponseLoop d br prepared.2 delivered

/-- The call results requestBid dispatches (live calls in request order, then
    one synthetic stored-response call per stored impression); `delivered`
    ranges over permutations of this list. -/
def dispatchedCalls (d : RunnerDeps) (br : BidderRequest) : List HttpCallInfo :=
  (if br.bidRequest.imp.isEmpty then []
   else
     (addOutboundHeaders d br.bidRequest (d.bidder.makeRequests br.bidRequest d.reqInfoGpc).1 []).1.map
       (doRequestImpl d.env d.cfg))
  ++ br.bidderStoredResponses.map (fun p => prepareStoredResponse p.1 p.2)

/-- The normalized bid one iteration of the per-bid loop appends for its bid
    (none when the claimed-seat validation drops the bid); an extraction of
    `processBid`'s effect used to state list-level lemmas. -/
def contribOf (ctx : BidLoopCtx) (tb : TypedBid) : Option pbsOrtbBid :=
  if (ctx.isValidBidderCode ctx.primary (claimedSeatOf ctx.primary tb)).1 then
    some
      { bid :=
          match tb.bid with
          | some b =>
            some { b with price :=
              b.price * adjustmentFactorOf ctx.bidAdjustments ctx.primary (claimedSeatOf ctx.primary tb)
                * ctx.conversionRate }
          | none => none,
        bidMeta := some { tb.bidMeta.getD {} with adapterCode := ctx.primary },
        bidType := tb.bidType, bidVideo := tb.bidVideo, dealPriority := tb.dealPriority,
        originalBidCPM := (match tb.bid with | some b => b.price | none => 0),
        originalBidCur := ctx.respCurrency }
  else none

/-! ## Hook stage executors (src/hooks/hookexecution/executor.go)

    The per-group machinery (`executeStage` of execution.go) lives outside
    src/, so each Execute*Stage takes it as an abstract function parameter;
    the executor.go logic around it — plan lookup, the empty-plan short
    circuit, outcome tagging, context saving and outcome recording — is
    translated from the source. -/

/-- A hook reference inside a group (module code, hook impl code). -/
structure HookRef where
  moduleCode : String
  hookImplCode : String
deriving DecidableEq, Repr

/-- Modelled from the spec: a group is a set of hooks with a shared timeout in
    milliseconds (hooks.Group, defined outside src/). -/
structure HookGroup where
  timeout : Nat
  hooks : List HookRef
deriving DecidableEq, Repr

/-- Modelled from the spec: a plan is an ordered sequence of groups
    (hooks.Plan, defined outside src/). -/
def HookPlan : Type := List HookGroup

/-- The subset of config.Account the executor reads. -/
structure Account where
  id : String
deriving DecidableEq, Repr

/-- hooks.ExecutionPlanBuilder: typed plan lookups per stage. -/
structure PlanBuilder where
  planForEntrypointStage : String → HookPlan
  planForRawAuctionStage : String → Option Account → HookPlan
  planForBidderRequestStage : String → Option Account → HookPlan
  planForRawBidderResponseStage : String → Option Account → HookPlan

/-- Modelled from the spec: the opaque per-module scratch map
    (hookstage.ModuleContext, defined outside src/). -/
def ModuleContext : Type := List (String × String)

instance : DecidableEq ModuleContext := by unfold ModuleContext; infer_instance

/-- The fields of a StageOutcome executor.go itself writes (the rest lives in
    execution.go, outside src/). -/
structure StageOutcome where
  entity : String
  stage : String
deriving DecidableEq, Repr

/-- hookexecution.hookExecutor's state. -/
structure HookExecutor where
  account : Option Account
  accountId : String
  endpoint : String
  planBuilder : PlanBuilder
  stageOutcomes : List StageOutcome
  moduleContexts : List (String × ModuleContext)

/-- Minimal stand-in for *http.Request inside the entrypoint payload. -/
structure HttpRequest where
  headers : Header
deriving DecidableEq, Repr

structure EntrypointPayload where
  request : HttpRequest
  body : String
deriving DecidableEq, Repr

structure BidderRequestPayload where
  bidRequest : BidRequest
  bidder : String
deriving DecidableEq, Repr

structure RawBidderResponsePayload where
  bids : List TypedBid
  bidder : String
deriving DecidableEq, Repr

/-- What execution.go's executeStage hands back: the stage outcome, the final
    payload, the per-group module-context updates, and an optional reject. -/
structure ExecStageResult (P : Type) where
  outcome : StageOutcome
  payload : P
  contexts : List (List (String × ModuleContext))
  reject : Option RejectError

/-- hookexecution.hookExecutor.GetOutcomes. -/
def GetOutcomes (e : HookExecutor) : List StageOutcome :=
  e.stageOutcomes

/-- moduleContexts.put: replace the entry when present, append otherwise. -/
def putModuleContext (m : List (String × ModuleContext)) (k : String) (v : ModuleContext) :
    List (String × ModuleContext) :=
  if (m.find? (fun p => p.1 = k)).isSome then
    m.map (fun p => if p.1 = k then (k, v) else p)
  else m ++ [(k, v)]

/-- executor.go saveModuleContexts: store every module context of every group. -/
def saveModuleContexts (e : HookExecutor) (ctxs : List (List (String × ModuleContext))) :
    HookExecutor :=
  let m := ctxs.foldl (fun acc grp => grp.foldl (fun acc2 p => putModuleContext acc2 p.1 p.2) acc)
    e.moduleContexts
  { e with moduleContexts := m }

/-- executor.go pushStageOutcome. -/
def pushStageOutcome (e : HookExecutor) (o : StageOutcome) : HookExecutor :=
  { e with stageOutcomes := e.stageOutcomes ++ [o] }

/-- executor.go ExecuteEntrypointStage: an empty plan returns the body
    untouched with no reject and records nothing. -/
def ExecuteEntrypointStage
    (execStage : HookPlan → EntrypointPayload → ExecStageResult EntrypointPayload)
    (e : HookExecutor) (req : HttpRequest) (body : String) :
    String × Option RejectError × HookExecutor :=
  let plan := e.planBuilder.planForEntrypointStage e.endpoint
  if plan.length = 0 then (body, none, e)
  else
    let r := execStage plan { request := req, body := body }
    let o := { r.outcome with entity := "http-request", stage := "entrypoint" }
    let e1 := pushStageOutcome (saveModuleContexts e r.contexts) o
    (r.payload.body, r.reject, e1)

/-- executor.go ExecuteRawAuctionStage. -/
def ExecuteRawAuctionStage
    (execStage : HookPlan → String → ExecStageResult String)
    (e : HookExecutor) (requestBody : String) :
    String × Option RejectError × HookExecutor :=
  let plan := e.planBuilder.planForRawAuctionStage e.endpoint e.account
  if plan.length = 0 then (requestBody, none, e)
  else
    let r := execStage plan requestBody
    let o := { r.outcome with entity := "auction-request", stage := "rawauction" }
    let e1 := pushStageOutcome (saveModuleContexts e r.contexts) o
    (r.payload, r.reject, e1)

/-- executor.go ExecuteBidderRequestStage. -/
def ExecuteBidderRequestStage
    (execStage : HookPlan → BidderRequestPayload → ExecStageResult BidderRequestPayload)
    (e : HookExecutor) (req : BidRequest) (bidder : String) :
    Option RejectError × HookExecutor :=
  let plan := e.planBuilder.planForBidderRequestStage e.endpoint e.account
  if plan.length = 0 then (none, e)
  else
    let r := execStage plan { bidRequest := req, bidder := bidder }
    let o := { r.outcome with entity := bidder, stage := "bidrequest" }
    let e1 := pushStageOutcome (saveModuleContexts e r.contexts) o
    (r.reject, e1)

/-- executor.go ExecuteRawBidderResponseStage. -/
def ExecuteRawBidderResponseStage
    (execStage : HookPlan → RawBidderResponsePayload → ExecStageResult RawBidderResponsePayload)
    (e : HookExecutor) (response : BidderResponse) (bidder : String) :
    Option RejectError × HookExecutor :=
  let plan := e.planBuilder.planForRawBidderResponseStage e.endpoint e.account
  if plan.length = 0 then (none, e)
  else
    let r := execStage plan { bids := response.bids, bidder := bidder }
    let o := { r.outcome with entity := bidder, stage := "rawbidresponse" }
    let e1 := pushStageOutcome (saveModuleContexts e r.contexts) o
    (r.reject, e1)

/-! ## Concrete instances (used by the witness theorems) -/

def testEnv : Env :=
  { buildXPrebidHeader := fun _ => "pbs-go/1.0",
    signHeader := "X-Ads-Cert-Auth",
    gzipCompress := fun s => s,
    newRequestErr := fun _ _ => none,
    transport := fun _ => TransportResult.ok 200 "{}" [],
    unmarshalNativeMarkup := fun _ => none,
    unmarshalNativeRequest := fun _ => Except.error "not native",
    marshalNativeMarkup := fun _ => Except.error "not native" }

def testEnv500 : Env :=
  { testEnv with transport := fun _ => TransportResult.ok 500 "oops" [] }

def testCfg : BidderAdapterConfig :=
  { debugInfoAllow := true, endpointCompression := "" }

def testCfgNoDebug : BidderAdapterConfig :=
  { debugInfoAllow := false, endpointCompression := "" }

def testOpts : BidRequestOptions :=
  { accountDebugAllowed := true, headerDebugAllowed := false,
    addCallSignHeader := false, bidAdjustments := [("alt", (3 : ℚ)/2)] }

def testImp : Imp := { id := "imp-1", native := none }

def testBidRequest : BidRequest := { imp := [testImp], cur := ["USD", "GBP"], app := none }

def testBidRequestNoCur : BidRequest := { imp := [testImp], cur := [], app := none }

def testBid : Bid := { id := "b1", impID := "imp-1", price := 2, adm := "" }

def testTypedBid : TypedBid :=
  { bid := some testBid, bidMeta := none, bidType := BidType.banner,
    bidVideo := none, dealPriority := 0, seat := "alt" }

def testTypedBidPlain : TypedBid :=
  { bid := some testBid, bidMeta := none, bidType := BidType.banner,
    bidVideo := none, dealPriority := 0, seat := "" }

def testResponse : BidderResponse := { currency := "EUR", bids := [testTypedBid] }

def testResponseNoCur : BidderResponse := { currency := "", bids := [testTypedBidPlain] }

def testRequestData : RequestData :=
  { method := "POST", uri := "http://bidder.example/ep", body := "{}", headers := [] }

def testBidderLive : Bidder :=
  { makeRequests := fun _ _ => ([testRequestData], []),
    makeBids := fun _ _ _ => (some testResponse, []) }

def testBidderNoCur : Bidder :=
  { makeRequests := fun _ _ => ([testRequestData], []),
    makeBids := fun _ _ _ => (some testResponseNoCur, []) }

def testBidderNoReq : Bidder :=
  { makeRequests := fun _ _ => ([], []),
    makeBids := fun _ _ _ => (none, []) }

def testBidderOnlyErrs : Bidder :=
  { makeRequests := fun _ _ => ([], [.generic "adapter exploded"]),
    makeBids := fun _ _ _ => (none, []) }

def testConv : Conversions := fun a b =>
  if a = "EUR" ∧ b = "USD" then Except.ok ((11 : ℚ)/10)
  else Except.error (.conversion ("no conversion " ++ a ++ " to " ++ b))

def testConvUSD : Conversions := fun a b =>
  if a = "USD" ∧ b = "USD" then Except.ok 1
  else Except.error (.conversion ("no conversion " ++ a ++ " to " ++ b))

def testAltOk : String → String → Bool × Option String := fun _ _ => (true, none)

def testRunnerCtx : RunnerCtx :=
  { env := testEnv, bidder := testBidderLive, cfg := testCfg, opts := testOpts,
    conversions := testConv, alternateBidderCodes := testAltOk,
    bidderName := "appnexus", bidderStoredResponses := [], impReplaceImpId := [] }

def testRunnerCtxNoDebug : RunnerCtx :=
  { testRunnerCtx with cfg := testCfgNoDebug }

def testRunnerCtxUSD : RunnerCtx :=
  { testRunnerCtx with bidder := testBidderNoCur, conversions := testConvUSD }

def testBidderRequest : BidderRequest :=
  { bidRequest := testBidRequest, bidderName := "appnexus",
    bidderStoredResponses := [], impReplaceImpId := [] }

def testLoopState : LoopState := initialLoopState testBidderRequest []

def testLoopStateNoCur : LoopState :=
  { testLoopState with bidRequest := testBidRequestNoCur }

def testBidLoopCtx : BidLoopCtx :=
  { primary := "appnexus", bidAdjustments := [("alt", (3 : ℚ)/2)],
    isValidBidderCode := testAltOk, conversionRate := (11 : ℚ)/10, respCurrency := "EUR" }

def testSigner : String → String → Except String String := fun _ _ => Except.ok ""

def testReject : RejectError := { stage := "bidrequest", reason := "blocked by module" }

def testDepsReject : RunnerDeps :=
  { env := testEnv, bidder := testBidderLive, cfg := testCfg, conversions := testConv,
    reqInfoGpc := "", signer := testSigner, opts := testOpts,
    alternateBidderCodes := testAltOk, hookExec := fun _ _ => some testReject }

def testDepsNoReq : RunnerDeps :=
  { testDepsReject with bidder := testBidderNoReq, hookExec := fun _ _ => none }

def testDepsOnlyErrs : RunnerDeps :=
  { testDepsNoReq with bidder := testBidderOnlyErrs }

def testStoredInfo : HttpCallInfo := prepareStoredResponse "imp-1" "stored-bytes"

def testPlanBuilderEmpty : PlanBuilder :=
  { planForEntrypointStage := fun _ => [],
    planForRawAuctionStage := fun _ _ => [],
    planForBidderRequestStage := fun _ _ => [],
    planForRawBidderResponseStage := fun _ _ => [] }

def testHookExecutor : HookExecutor :=
  { account := none, accountId := "", endpoint := "/openrtb2/auction",
    planBuilder := testPlanBuilderEmpty, stageOutcomes := [], moduleContexts := [] }

def testExecStage {P : Type} : HookPlan → P → ExecStageResult P :=
  fun _ p => { outcome := { entity := "", stage := "" }, payload := p, contexts := [], reject := none }

def testHttpRequest : HttpRequest := { headers := [] }

def testAuthHeaders : Header :=
  [("X-Prebid", ["pbs-go/1.0"]), ("Authorization", ["Bearer secret-token"])]

def testRequestDataAuth : RequestData :=
  { method := "POST", uri := "http://bidder.example/ep", body := "{}", headers := testAuthHeaders }

/-! ## Helper lemmas: headers -/

theorem filter_addEntry (K v : String) (h : List (String × List String)) :
    List.filter (fun p => p.1 ≠ K) (addEntry h K v) = List.filter (fun p => p.1 ≠ K) h := by
  induction h with
  | nil => simp [addEntry]
  | cons hd tl ih =>
    obtain ⟨a, b⟩ := hd
    by_cases hk : a = K
    · simp [addEntry, hk]
    · simp [addEntry, hk]
      simpa using ih

theorem del_add_same (h : Header) (key k2 v : String)
    (hk : canonicalHeaderKey key = canonicalHeaderKey k2) :
    Header.del (Header.add h key v) k2 = Header.del h k2 := by
  unfold Header.del Header.add
  rw [hk]
  exact filter_addEntry _ _ _

theorem del_del_same (h : Header) (k1 k2 : String)
    (hk : canonicalHeaderKey k1 = canonicalHeaderKey k2) :
    Header.del (Header.del h k1) k2 = Header.del h k2 := by
  unfold Header.del
  rw [hk, List.filter_filter]
  congr 1
  funext p
  by_cases hp : p.1 = canonicalHeaderKey k2 <;> simp [hp]

theorem values_del (h : Header) (k : String) :
    Header.values (Header.del h k) k = [] := by
  unfold Header.values Header.del
  induction h with
  | nil => simp [valuesEntry]
  | cons hd tl ih =>
    by_cases hK : hd.1 = canonicalHeaderKey k
    · simpa [hK] using ih
    · simpa [valuesEntry, hK] using ih

/-! ## Helper lemmas: the seat map -/

theorem lookupSeat_updateSeat (m : List (String × pbsOrtbSeatBid)) (k : String)
    (f : pbsOrtbSeatBid → pbsOrtbSeatBid) (s : String) :
    lookupSeat (updateSeat m k f) s =
      if s = k then (lookupSeat m k).map f else lookupSeat m s := by
  induction m with
  | nil => simp [lookupSeat, updateSeat]
  | cons hd tl ih =>
    obtain ⟨a, b⟩ := hd
    by_cases h2 : a = k
    · subst h2
      by_cases h1 : a = s
      · subst h1
        simp [updateSeat, lookupSeat]
      · have hsk : ¬s = a := fun hh => h1 hh.symm
        simp only [updateSeat, List.map_cons] at *
        simp [lookupSeat, h1, hsk, ih, updateSeat]
    · by_cases h1 : a = s
      · subst h1
        simp [updateSeat, lookupSeat, h2, fun hh : a = k => h2 hh]
      · simp only [updateSeat, List.map_cons] at *
        simp [lookupSeat, h1, h2, ih, updateSeat]

theorem lookupSeat_append_some (m m' : List (String × pbsOrtbSeatBid)) (s : String)
    (x : pbsOrtbSeatBid) (h : lookupSeat m s = some x) :
    lookupSeat (m ++ m') s = some x := by
  induction m with
  | nil => simp [lookupSeat] at h
  | cons hd tl ih =>
    by_cases h1 : hd.1 = s
    · simpa [lookupSeat, h1] using h
    · simp [lookupSeat, h1] at h ⊢
      exact ih h

theorem lookupSeat_append_none (m m' : List (String × pbsOrtbSeatBid)) (s : String)
    (h : lookupSeat m s = none) :
    lookupSeat (m ++ m') s = lookupSeat m' s := by
  induction m with
  | nil => simp [lookupSeat]
  | cons hd tl ih =>
    by_cases h1 : hd.1 = s
    · simp [lookupSeat, h1] at h
    · simp [lookupSeat, h1] at h ⊢
      exact ih h

theorem seatBids_updateSeat_keep (m : List (String × pbsOrtbSeatBid)) (k : String)
    (f : pbsOrtbSeatBid → pbsOrtbSeatBid) (s : String) (hf : ∀ sb, (f sb).bids = sb.bids) :
    seatBids (updateSeat m k f) s = seatBids m s := by
  unfold seatBids
  rw [lookupSeat_updateSeat]
  by_cases h : s = k
  · subst h
    cases lookupSeat m s with
    | none => simp
    | some sb => simp [hf]
  · simp [h]

/-! ## Helper lemmas: the per-bid loop -/

theorem processBid_seatBids (ctx : BidLoopCtx) (st : LoopState) (tb : TypedBid) (s : String) :
    seatBids (processBid ctx st tb).seatBidMap s =
      seatBids st.seatBidMap s ++
        (match contribOf ctx tb with
         | some e => if claimedSeatOf ctx.primary tb = s then [e] else []
         | none => []) := by
  unfold processBid contribOf
  by_cases hv : (ctx.isValidBidderCode ctx.primary (claimedSeatOf ctx.primary tb)).1 = true
  · simp only [hv, if_true]
    cases hls : lookupSeat st.seatBidMap (claimedSeatOf ctx.primary tb) with
    | some sb =>
      simp only [hls]
      by_cases hs : claimedSeatOf ctx.primary tb = s
      · unfold seatBids
        rw [lookupSeat_updateSeat]
        rw [← hs] at *
        simp [hls]
      · unfold seatBids
        rw [lookupSeat_updateSeat]
        have hs' : ¬s = claimedSeatOf ctx.primary tb := fun hh => hs hh.symm
        simp [hs, hs']
    | none =>
      simp only [hls]
      by_cases hs : claimedSeatOf ctx.primary tb = s
      · unfold seatBids
        rw [lookupSeat_updateSeat]
        rw [← hs] at *
        have happ := lookupSeat_append_none st.seatBidMap
          [(claimedSeatOf ctx.primary tb,
            { bids := [], currency := defaultCurrency,
              httpCalls := ((lookupSeat st.seatBidMap ctx.primary).map (fun sb => sb.httpCalls)).getD [],
              seat := claimedSeatOf ctx.primary tb })]
          (claimedSeatOf ctx.primary tb) hls
        simp [happ, lookupSeat, hls]
      · unfold seatBids
        rw [lookupSeat_updateSeat]
        have hs' : ¬s = claimedSeatOf ctx.primary tb := fun hh => hs hh.symm
        cases hl2 : lookupSeat st.seatBidMap s with
        | some sb2 =>
          have := lookupSeat_append_some st.seatBidMap
            [(claimedSeatOf ctx.primary tb,
              { bids := [], currency := defaultCurrency,
                httpCalls := ((lookupSeat st.seatBidMap ctx.primary).map (fun sb => sb.httpCalls)).getD [],
                seat := claimedSeatOf ctx.primary tb })] s sb2 hl2
          simp [hs, hs', this, hl2]
        | none =>
          have := lookupSeat_append_none st.seatBidMap
            [(claimedSeatOf ctx.primary tb,
              { bids := [], currency := defaultCurrency,
                httpCalls := ((lookupSeat st.seatBidMap ctx.primary).map (fun sb => sb.httpCalls)).getD [],
                seat := claimedSeatOf ctx.primary tb })] s hl2
          simp [hs, hs', this, hl2, lookupSeat]
  · simp only [if_neg hv]
    cases (ctx.isValidBidderCode ctx.primary (claimedSeatOf ctx.primary tb)).2 <;> simp

theorem processBid_lookup_pres (ctx : BidLoopCtx) (st : LoopState) (tb : TypedBid)
    (s : String) (sb : pbsOrtbSeatBid) (h : lookupSeat st.seatBidMap s = some sb) :
    ∃ sb', lookupSeat (processBid ctx st tb).seatBidMap s = some sb'
      ∧ sb'.currency = sb.currency ∧ sb'.seat = sb.seat := by
  unfold processBid
  by_cases hv : (ctx.isValidBidderCode ctx.primary (claimedSeatOf ctx.primary tb)).1 = true
  · simp only [hv, if_true]
    cases hls : lookupSeat st.seatBidMap (claimedSeatOf ctx.primary tb) with
    | some sb2 =>
      simp only [hls]
      rw [lookupSeat_updateSeat]
      by_cases hs : s = claimedSeatOf ctx.primary tb
      · rw [hs] at h
        rw [if_pos hs, hls]
        rw [h] at hls
        cases hls
        exact ⟨_, rfl, rfl, rfl⟩
      · rw [if_neg hs]
        exact ⟨sb, h, rfl, rfl⟩
    | none =>
      simp only [hls]
      rw [lookupSeat_updateSeat]
      by_cases hs : s = claimedSeatOf ctx.primary tb
      · rw [hs] at h
        rw [h] at hls
        cases hls
      · rw [if_neg hs]
        have := lookupSeat_append_some st.seatBidMap
          [(claimedSeatOf ctx.primary tb,
            { bids := [], currency := defaultCurrency,
              httpCalls := ((lookupSeat st.seatBidMap ctx.primary).map (fun x => x.httpCalls)).getD [],
              seat := claimedSeatOf ctx.primary tb })] s sb h
        exact ⟨sb, this, rfl, rfl⟩
  · simp only [if_neg hv]
    cases (ctx.isValidBidderCode ctx.primary (claimedSeatOf ctx.primary tb)).2 with
    | some msg => exact ⟨sb, h, rfl, rfl⟩
    | none => exact ⟨sb, h, rfl, rfl⟩

theorem foldl_processBid_lookup_pres (ctx : BidLoopCtx) (bs : List TypedBid) :
    ∀ (st : LoopState) (s : String) (sb : pbsOrtbSeatBid),
      lookupSeat st.seatBidMap s = some sb →
      ∃ sb', lookupSeat ((bs.foldl (processBid ctx) st)).seatBidMap s = some sb'
        ∧ sb'.currency = sb.currency ∧ sb'.seat = sb.seat := by
  induction bs with
  | nil => exact fun st s sb h => ⟨sb, h, rfl, rfl⟩
  | cons tb rest ih =>
    intro st s sb h
    rw [List.foldl_cons]
    obtain ⟨sb1, h1, hc1, hs1⟩ := processBid_lookup_pres ctx st tb s sb h
    obtain ⟨sb2, h2, hc2, hs2⟩ := ih _ s sb1 h1
    exact ⟨sb2, h2, hc2.trans hc1, hs2.trans hs1⟩

theorem foldl_processBid_mem (ctx : BidLoopCtx) (bs : List TypedBid) :
    ∀ (st : LoopState) (s : String) (x : pbsOrtbBid),
      x ∈ seatBids st.seatBidMap s →
      x ∈ seatBids ((bs.foldl (processBid ctx) st)).seatBidMap s := by
  induction bs with
  | nil => exact fun _ _ _ h => h
  | cons tb rest ih =>
    intro st s x h
    rw [List.foldl_cons]
    apply ih
    rw [processBid_seatBids]
    exact List.mem_append_left _ h

theorem foldl_processBid_contrib (ctx : BidLoopCtx) (bs : List TypedBid) :
    ∀ (st : LoopState) (tb : TypedBid) (e : pbsOrtbBid),
      tb ∈ bs → contribOf ctx tb = some e →
      e ∈ seatBids ((bs.foldl (processBid ctx) st)).seatBidMap (claimedSeatOf ctx.primary tb) := by
  induction bs with
  | nil => intro st tb e h; simp at h
  | cons a rest ih =>
    intro st tb e hmem hc
    rw [List.foldl_cons]
    rcases List.mem_cons.mp hmem with heq | hmem'
    · subst heq
      apply foldl_processBid_mem
      rw [processBid_seatBids, hc]
      simp
    · exact ih _ tb e hmem' hc

/-! ## Helper lemmas: the debug gate -/

theorem debugGate_bidRequest (ctx : RunnerCtx) (st : LoopState) (info : HttpCallInfo) :
    (debugGate ctx st info).bidRequest = st.bidRequest := by
  unfold debugGate
  split_ifs <;> rfl

theorem debugGate_seatBids (ctx : RunnerCtx) (st : LoopState) (info : HttpCallInfo) (s : String) :
    seatBids (debugGate ctx st info).seatBidMap s = seatBids st.seatBidMap s := by
  unfold debugGate
  split_ifs
  · exact seatBids_updateSeat_keep st.seatBidMap ctx.bidderName
      (fun x => { x with httpCalls := x.httpCalls ++ [makeExt info] }) s (fun x => rfl)
  · exact seatBids_updateSeat_keep st.seatBidMap ctx.bidderName
      (fun x => { x with httpCalls := x.httpCalls ++ [makeExt info] }) s (fun x => rfl)
  · rfl
  · rfl

theorem debugGate_lookup_pres (ctx : RunnerCtx) (st : LoopState) (info : HttpCallInfo)
    (s : String) (sb : pbsOrtbSeatBid) (h : lookupSeat st.seatBidMap s = some sb) :
    ∃ sb', lookupSeat (debugGate ctx st info).seatBidMap s = some sb'
      ∧ sb'.currency = sb.currency ∧ sb'.bids = sb.bids := by
  have key :
      ∃ sb', lookupSeat
          (updateSeat st.seatBidMap ctx.bidderName
            (fun x => { x with httpCalls := x.httpCalls ++ [makeExt info] })) s = some sb'
        ∧ sb'.currency = sb.currency ∧ sb'.bids = sb.bids := by
    rw [lookupSeat_updateSeat]
    by_cases hs : s = ctx.bidderName
    · rw [if_pos hs, ← hs, h]
      exact ⟨_, rfl, rfl, rfl⟩
    · rw [if_neg hs]
      exact ⟨sb, h, rfl, rfl⟩
  unfold debugGate
  split_ifs
  · exact key
  · exact key
  · exact ⟨sb, h, rfl, rfl⟩
  · exact ⟨sb, h, rfl, rfl⟩

theorem debugGate_errs (ctx : RunnerCtx) (st : LoopState) (info : HttpCallInfo) :
    ∃ E, (debugGate ctx st info).errs = st.errs ++ E := by
  unfold debugGate
  split_ifs
  · exact ⟨[], by simp⟩
  · exact ⟨[], by simp⟩
  · exact ⟨_, rfl⟩
  · exact ⟨[], by simp⟩

/-! ## Helper lemmas: currency scan and normalization -/

theorem tryCurrencies_cons (conv : Conversions) (C c : String) (rest : List String)
    (hne : rest ≠ []) :
    tryCurrencies conv C (c :: rest) =
      match conv C c with
      | Except.ok r => (none, r, some c)
      | Except.error _ => tryCurrencies conv C rest := by
  cases rest with
  | nil => exact absurd rfl hne
  | cons a t => cases h : conv C c <;> simp [tryCurrencies, h]

theorem tryCurrencies_found (conv : Conversions) (C : String) (pre : List String) (c : String)
    (post : List String) (r : ℚ)
    (hpre : ∀ c' ∈ pre, ∃ e, conv C c' = Except.error e)
    (hc : conv C c = Except.ok r) :
    tryCurrencies conv C (pre ++ c :: post) = (none, r, some c) := by
  induction pre with
  | nil =>
    cases post with
    | nil => simp [tryCurrencies, hc]
    | cons a t => simp [tryCurrencies, hc]
  | cons p pre' ih =>
    obtain ⟨e, he⟩ := hpre p (List.mem_cons_self _ _)
    have hne : pre' ++ c :: post ≠ [] := by simp
    rw [List.cons_append, tryCurrencies_cons conv C p _ hne, he]
    exact ih (fun c' hm => hpre c' (List.mem_cons_of_mem _ hm))

theorem tryCurrencies_allFail (conv : Conversions) (C : String) (curs : List String)
    (hne : curs ≠ [])
    (hall : ∀ c ∈ curs, ∃ e, conv C c = Except.error e) :
    ∃ e clast, curs.getLast? = some clast ∧ conv C clast = Except.error e
      ∧ tryCurrencies conv C curs = (some e, 0, none) := by
  induction curs with
  | nil => exact absurd rfl hne
  | cons c rest ih =>
    cases rest with
    | nil =>
      obtain ⟨e, he⟩ := hall c (List.mem_cons_self _ _)
      exact ⟨e, c, rfl, he, by simp [tryCurrencies, he]⟩
    | cons a t =>
      obtain ⟨e1, he1⟩ := hall c (List.mem_cons_self _ _)
      obtain ⟨e, clast, hl, hce, ht⟩ :=
        ih (by simp) (fun c' hm => hall c' (List.mem_cons_of_mem _ hm))
      refine ⟨e, clast, ?_, hce, ?_⟩
      · rw [List.getLast?_cons_cons]
        exact hl
      · rw [tryCurrencies_cons conv C c _ (by simp), he1]
        exact ht

theorem normalizeRequestCur_ne_nil (br : BidRequest) : (normalizeRequestCur br).cur ≠ [] := by
  unfold normalizeRequestCur
  split_ifs with h
  · simp [defaultCurrency]
  · exact h

theorem normalizeRequestCur_app (br : BidRequest) : (normalizeRequestCur br).app = br.app := by
  unfold normalizeRequestCur
  split_ifs <;> rfl

theorem normalizeResponseCurrency_bids (resp : BidderResponse) :
    (normalizeResponseCurrency resp).bids = resp.bids := by
  unfold normalizeResponseCurrency
  split_ifs <;> rfl

theorem processBid_bidRequest (ctx : BidLoopCtx) (st : LoopState) (tb : TypedBid) :
    (processBid ctx st tb).bidRequest = st.bidRequest := by
  unfold processBid
  by_cases hv : (ctx.isValidBidderCode ctx.primary (claimedSeatOf ctx.primary tb)).1 = true
  · simp only [hv, if_true]
    cases hls : lookupSeat st.seatBidMap (claimedSeatOf ctx.primary tb) <;> simp [hls]
  · simp only [if_neg hv]
    cases (ctx.isValidBidderCode ctx.primary (claimedSeatOf ctx.primary tb)).2 <;> rfl

theorem foldl_processBid_bidRequest (ctx : BidLoopCtx) (bs : List TypedBid) :
    ∀ st : LoopState, ((bs.foldl (processBid ctx) st)).bidRequest = st.bidRequest := by
  induction bs with
  | nil => exact fun _ => rfl
  | cons tb rest ih =>
    intro st
    rw [List.foldl_cons, ih, processBid_bidRequest]

/-! ## Helper lemmas: the stored-response sentinel split -/

theorem isPrefixOf_append_self (l t : List Char) : l.isPrefixOf (l ++ t) = true := by
  rw [List.isPrefixOf_iff_prefix]
  exact List.prefix_append l t

theorem splitOnList_hit (sep l : List Char) (hne : sep ≠ []) (acc : List Char) :
    splitOnList sep acc (sep ++ l) = acc.reverse :: splitOnList sep [] l := by
  cases sep with
  | nil => exact absurd rfl hne
  | cons s0 stail =>
    rw [List.cons_append, splitOnList]
    rw [dif_pos]
    · rw [← List.cons_append, List.drop_left]
    · rw [← List.cons_append]
      simp [isPrefixOf_append_self]

theorem splitOnList_noOccur (sep : List Char) : ∀ (l acc : List Char),
    containsSeq sep l = false → splitOnList sep acc l = [acc.reverse ++ l] := by
  intro l
  induction l with
  | nil =>
    intro acc h
    simp [splitOnList]
  | cons c rest ih =>
    intro acc h
    simp only [containsSeq, Bool.or_eq_false_iff] at h
    rw [splitOnList, dif_neg]
    · rw [ih (c :: acc) h.2]
      simp
    · simp [h.1]

theorem storedImpIdOf_roundTrip (impId : String)
    (hni : containsSeq ImpIdReqBody.data impId.data = false) :
    storedImpIdOf (ImpIdReqBody ++ impId) = impId := by
  unfold storedImpIdOf splitOnStr
  rw [String.data_append]
  rw [splitOnList_hit ImpIdReqBody.data impId.data (by decide) []]
  rw [splitOnList_noOccur ImpIdReqBody.data impId.data [] hni]
  simp

/-! ## Helper lemmas: the response-processing pipeline -/

theorem processHttpCallResult_ok (ctx : RunnerCtx) (st : LoopState) (info : HttpCallInfo)
    (resp : BidderResponse) (moreErrs : List BidderError)
    (he : info.err = none)
    (hmb : ctx.bidder.makeBids st.bidRequest info.request info.response = (some resp, moreErrs)) :
    processHttpCallResult ctx st info =
      processBidderResponse ctx
        { debugGate ctx st info with errs := (debugGate ctx st info).errs ++ moreErrs }
        info resp := by
  simp only [processHttpCallResult, he]
  rw [debugGate_bidRequest, hmb]

theorem processBidderResponse_found (ctx : RunnerCtx) (st2 : LoopState) (info : HttpCallInfo)
    (resp : BidderResponse) (pre : List String) (c : String) (post : List String) (r : ℚ)
    (hsplit : (normalizeRequestCur st2.bidRequest).cur = pre ++ c :: post)
    (hpre : ∀ c' ∈ pre, ∃ e,
      ctx.conversions (normalizeResponseCurrency resp).currency c' = Except.error e)
    (hc : ctx.conversions (normalizeResponseCurrency resp).currency c = Except.ok r) :
    processBidderResponse ctx st2 info resp = foundState ctx st2 info resp c r := by
  have ht := tryCurrencies_found ctx.conversions (normalizeResponseCurrency resp).currency
    pre c post r hpre hc
  simp only [processBidderResponse]
  rw [hsplit, ht]
  rfl

theorem processBidderResponse_drop (ctx : RunnerCtx) (st2 : LoopState) (info : HttpCallInfo)
    (resp : BidderResponse) (e : BidderError)
    (ht : tryCurrencies ctx.conversions (normalizeResponseCurrency resp).currency
            (normalizeRequestCur st2.bidRequest).cur = (some e, 0, none)) :
    processBidderResponse ctx st2 info resp = dropState ctx st2 resp e := by
  simp only [processBidderResponse]
  rw [ht]
  rfl

theorem foundState_lookup_primary (ctx : RunnerCtx) (st2 : LoopState) (info : HttpCallInfo)
    (resp : BidderResponse) (c : String) (r : ℚ) (sb2 : pbsOrtbSeatBid)
    (hl : lookupSeat st2.seatBidMap ctx.bidderName = some sb2) :
    ∃ sb, lookupSeat (foundState ctx st2 info resp c r).seatBidMap ctx.bidderName = some sb
      ∧ sb.currency = c := by
  unfold foundState
  obtain ⟨sbf, hf, hcur, -⟩ := foldl_processBid_lookup_pres
    { primary := ctx.bidderName, bidAdjustments := ctx.opts.bidAdjustments,
      isValidBidderCode := ctx.alternateBidderCodes,
      conversionRate := r, respCurrency := (normalizeResponseCurrency resp).currency }
    (replaceStoredImpIds (!ctx.bidderStoredResponses.isEmpty) ctx.impReplaceImpId info
      (respEnr ctx st2 resp).1)
    { bidRequest := normalizeRequestCur st2.bidRequest,
      seatBidMap := updateSeat st2.seatBidMap ctx.bidderName (fun sb => { sb with currency := c }),
      errs := st2.errs ++ (respEnr ctx st2 resp).2 }
    ctx.bidderName { sb2 with currency := c }
    (show lookupSeat (updateSeat st2.seatBidMap ctx.bidderName
        (fun sb => { sb with currency := c })) ctx.bidderName = some { sb2 with currency := c } by
      rw [lookupSeat_updateSeat, if_pos rfl, hl]
      rfl)
  exact ⟨sbf, hf, hcur⟩

theorem foundState_bidRequest (ctx : RunnerCtx) (st2 : LoopState) (info : HttpCallInfo)
    (resp : BidderResponse) (c : String) (r : ℚ) :
    (foundState ctx st2 info resp c r).bidRequest = normalizeRequestCur st2.bidRequest := by
  unfold foundState
  rw [foldl_processBid_bidRequest]

theorem foundState_mem (ctx : RunnerCtx) (st2 : LoopState) (info : HttpCallInfo)
    (resp : BidderResponse) (c : String) (r : ℚ) (tb : TypedBid) (b : Bid)
    (happ : (normalizeRequestCur st2.bidRequest).app = none)
    (hstored : ctx.bidderStoredResponses = [])
    (htb : tb ∈ resp.bids) (hb : tb.bid = some b)
    (hv : (ctx.alternateBidderCodes ctx.bidderName (claimedSeatOf ctx.bidderName tb)).1 = true) :
    ({ bid := some { b with price :=
          b.price * adjustmentFactorOf ctx.opts.bidAdjustments ctx.bidderName (claimedSeatOf ctx.bidderName tb) * r },
       bidMeta := some { tb.bidMeta.getD {} with adapterCode := ctx.bidderName },
       bidType := tb.bidType, bidVideo := tb.bidVideo, dealPriority := tb.dealPriority,
       originalBidCPM := b.price,
       originalBidCur := (normalizeResponseCurrency resp).currency } : pbsOrtbBid)
      ∈ seatBids (foundState ctx st2 info resp c r).seatBidMap (claimedSeatOf ctx.bidderName tb) := by
  unfold foundState
  have henr : respEnr ctx st2 resp = ((normalizeResponseCurrency resp).bids, []) := by
    unfold respEnr
    rw [happ]
    rfl
  rw [henr]
  have hrep : replaceStoredImpIds (!ctx.bidderStoredResponses.isEmpty) ctx.impReplaceImpId info
      ((normalizeResponseCurrency resp).bids, ([] : List BidderError)).1
      = (normalizeResponseCurrency resp).bids := by
    rw [hstored]
    rfl
  rw [hrep, normalizeResponseCurrency_bids]
  apply foldl_processBid_contrib _ _ _ tb _ htb
  simp [contribOf, hv, hb]

theorem dropState_seatBids (ctx : RunnerCtx) (st2 : LoopState) (resp : BidderResponse)
    (e : BidderError) (s : String) :
    seatBids (dropState ctx st2 resp e).seatBidMap s = seatBids st2.seatBidMap s := rfl

theorem dropState_errs_getLast (ctx : RunnerCtx) (st2 : LoopState) (resp : BidderResponse)
    (e : BidderError) :
    (dropState ctx st2 resp e).errs.getLast? = some e :=
  List.getLast?_concat _

/-- C2: per adapter bid response, the drain loop adopts as the primary seat's
    currency the first request currency (in list order, over the normalized
    request currency list) for which the converter returns a rate, and prices
    every accepted bid of the response with that rate; when every request
    currency fails, no bid of that response is added to any seat and the
    conversion error — the last lookup's error — is appended as the final
    error of the returned list. -/
theorem C2_currency_adoption (ctx : RunnerCtx) (st : LoopState) (info : HttpCallInfo)
    (resp : BidderResponse) (moreErrs : List BidderError) (sb0 : pbsOrtbSeatBid)
    (he : info.err = none)
    (hmb : ctx.bidder.makeBids st.bidRequest info.request info.response = (some resp, moreErrs))
    (hprim : lookupSeat st.seatBidMap ctx.bidderName = some sb0) :
    (∀ pre c post r,
      (normalizeRequestCur st.bidRequest).cur = pre ++ c :: post →
      (∀ c' ∈ pre, ∃ e, ctx.conversions (normalizeResponseCurrency resp).currency c'
          = Except.error e) →
      ctx.conversions (normalizeResponseCurrency resp).currency c = Except.ok r →
      ((∃ sb, lookupSeat (processHttpCallResult ctx st info).seatBidMap ctx.bidderName = some sb
          ∧ sb.currency = c)
       ∧ (st.bidRequest.app = none → ctx.bidderStoredResponses = [] →
          ∀ tb b, tb ∈ resp.bids → tb.bid = some b →
            (ctx.alternateBidderCodes ctx.bidderName (claimedSeatOf ctx.bidderName tb)).1 = true →
            ({ bid := some { b with price :=
                  b.price * adjustmentFactorOf ctx.opts.bidAdjustments ctx.bidderName (claimedSeatOf ctx.bidderName tb) * r },
               bidMeta := some { tb.bidMeta.getD {} with adapterCode := ctx.bidderName },
               bidType := tb.bidType, bidVideo := tb.bidVideo, dealPriority := tb.dealPriority,
               originalBidCPM := b.price,
               originalBidCur := (normalizeResponseCurrency resp).currency } : pbsOrtbBid)
              ∈ seatBids (processHttpCallResult ctx st info).seatBidMap
                  (claimedSeatOf ctx.bidderName tb))))
    ∧ ((∀ c ∈ (normalizeRequestCur st.bidRequest).cur,
          ∃ e, ctx.conversions (normalizeResponseCurrency resp).currency c = Except.error e) →
       ((∀ s, seatBids (processHttpCallResult ctx st info).seatBidMap s
            = seatBids st.seatBidMap s)
        ∧ ∃ e clast, (normalizeRequestCur st.bidRequest).cur.getLast? = some clast
            ∧ ctx.conversions (normalizeResponseCurrency resp).currency clast = Except.error e
            ∧ (processHttpCallResult ctx st info).errs.getLast? = some e)) := by
  rw [processHttpCallResult_ok ctx st info resp moreErrs he hmb]
  set stG : LoopState :=
    { debugGate ctx st info with errs := (debugGate ctx st info).errs ++ moreErrs } with hstG
  have hbrG : stG.bidRequest = st.bidRequest := debugGate_bidRequest ctx st info
  have hgG : lookupSeat stG.seatBidMap ctx.bidderName =
      lookupSeat (debugGate ctx st info).seatBidMap ctx.bidderName := rfl
  obtain ⟨sbg, hg, hgc, hgb⟩ := debugGate_lookup_pres ctx st info ctx.bidderName sb0 hprim
  constructor
  · intro pre c post r hsplit hpre hc
    rw [processBidderResponse_found ctx stG info resp pre c post r
      (by rw [hbrG]; exact hsplit) hpre hc]
    constructor
    · exact foundState_lookup_primary ctx stG info resp c r sbg (hgG.trans hg)
    · intro happ hstored tb b htb hb hv
      exact foundState_mem ctx stG info resp c r tb b
        (by rw [hbrG, normalizeRequestCur_app]; exact happ) hstored htb hb hv
  · intro hall
    have hcurs_ne := normalizeRequestCur_ne_nil st.bidRequest
    obtain ⟨e, clast, hlast, hce, ht⟩ := tryCurrencies_allFail ctx.conversions
      (normalizeResponseCurrency resp).currency (normalizeRequestCur st.bidRequest).cur
      hcurs_ne hall
    rw [processBidderResponse_drop ctx stG info resp e (by rw [hbrG]; exact ht)]
    refine ⟨?_, e, clast, hlast, hce, dropState_errs_getLast ctx stG resp e⟩
    intro s
    exact (dropState_seatBids ctx stG resp e s).trans (debugGate_seatBids ctx st info s)

/-- C2 witness: response currency EUR, request currencies [USD, GBP], rate
    EUR→USD available — USD is adopted and the bid is priced with that rate. -/
theorem C2_currency_adoption_witness :
    testStoredInfo.err = none
    ∧ (normalizeRequestCur testLoopState.bidRequest).cur = [] ++ "USD" :: ["GBP"]
    ∧ testConv "EUR" "USD" = Except.ok ((11 : ℚ)/10)
    ∧ (∃ sb, lookupSeat (processHttpCallResult testRunnerCtx testLoopState testStoredInfo).seatBidMap
        "appnexus" = some sb ∧ sb.currency = "USD") := by
  have h := (C2_currency_adoption testRunnerCtx testLoopState testStoredInfo testResponse []
    { bids := [], currency := "USD", httpCalls := [], seat := "appnexus" }
    rfl rfl (by decide)).1 [] "USD" ["GBP"] ((11 : ℚ)/10)
    (by decide) (by intro c' hm; cases hm) rfl
  exact ⟨rfl, by decide, rfl, h.1⟩

/-! ## Claim theorems -/

/-- C9: for every stage whose execution plan has an empty group list,
    executing that stage returns the input payload unchanged, returns no
    reject signal, and records no stage outcome — the executor (hence
    GetOutcomes) is untouched. Stated for all four stage executors of
    executor.go, for any stage body `executeStage` whatsoever. -/
theorem C9_empty_plan_identity
    (es1 : HookPlan → EntrypointPayload → ExecStageResult EntrypointPayload)
    (es2 : HookPlan → String → ExecStageResult String)
    (es3 : HookPlan → BidderRequestPayload → ExecStageResult BidderRequestPayload)
    (es4 : HookPlan → RawBidderResponsePayload → ExecStageResult RawBidderResponsePayload)
    (e : HookExecutor) (req : HttpRequest) (body rawBody : String)
    (breq : BidRequest) (bidderName : String) (response : BidderResponse)
    (h1 : e.planBuilder.planForEntrypointStage e.endpoint = [])
    (h2 : e.planBuilder.planForRawAuctionStage e.endpoint e.account = [])
    (h3 : e.planBuilder.planForBidderRequestStage e.endpoint e.account = [])
    (h4 : e.planBuilder.planForRawBidderResponseStage e.endpoint e.account = []) :
    ExecuteEntrypointStage es1 e req body = (body, none, e)
    ∧ ExecuteRawAuctionStage es2 e rawBody = (rawBody, none, e)
    ∧ ExecuteBidderRequestStage es3 e breq bidderName = (none, e)
    ∧ ExecuteRawBidderResponseStage es4 e response bidderName = (none, e)
    ∧ GetOutcomes (ExecuteEntrypointStage es1 e req body).2.2 = GetOutcomes e := by
  refine ⟨?_, ?_, ?_, ?_, ?_⟩ <;>
    simp [ExecuteEntrypointStage, ExecuteRawAuctionStage, ExecuteBidderRequestStage,
      ExecuteRawBidderResponseStage, h1, h2, h3, h4, GetOutcomes]

/-- C9 witness: a concrete executor whose plan builder returns empty plans. -/
theorem C9_empty_plan_identity_witness :
    testHookExecutor.planBuilder.planForEntrypointStage testHookExecutor.endpoint = []
    ∧ ExecuteEntrypointStage testExecStage testHookExecutor testHttpRequest "payload"
        = ("payload", none, testHookExecutor) :=
  ⟨rfl,
    (C9_empty_plan_identity testExecStage testExecStage testExecStage testExecStage
      testHookExecutor testHttpRequest "payload" "raw" testBidRequest "appnexus" testResponse
      rfl rfl rfl rfl).1⟩

/-- C6: when the BidderRequestStage returns a reject signal, requestBid stops
    immediately: the result is no seat-bids together with exactly the
    rejection error, for EVERY adapter, transport, and delivery schedule —
    so the adapter is never consulted and no outbound call is observed. -/
theorem C6_reject_short_circuit (d : RunnerDeps) (br : BidderRequest)
    (delivered : List HttpCallInfo) (r : RejectError)
    (h : d.hookExec br.bidRequest br.bidderName = some r) :
    requestBid d br delivered = ([], [.rejectError r]) := by
  simp [requestBid, h]

/-- C6 witness. -/
theorem C6_reject_short_circuit_witness :
    testDepsReject.hookExec testBidderRequest.bidRequest testBidderRequest.bidderName
        = some testReject
    ∧ requestBid testDepsReject testBidderRequest [] = ([], [.rejectError testReject]) :=
  ⟨rfl, C6_reject_short_circuit testDepsReject testBidderRequest [] testReject rfl⟩

/-- C8: with at least one impression, an adapter returning zero requests and
    zero errors makes requestBid return no seat-bids and exactly one
    FailedToRequestBids error; zero requests with errors returns those errors
    unchanged. Both hold for every delivery schedule (no call is consumed). -/
theorem C8_zero_requests (d : RunnerDeps) (br : BidderRequest) (delivered : List HttpCallInfo)
    (himp : br.bidRequest.imp ≠ [])
    (hreject : d.hookExec br.bidRequest br.bidderName = none) :
    (d.bidder.makeRequests br.bidRequest d.reqInfoGpc = ([], []) →
      requestBid d br delivered = ([], [.failedToRequestBids failedToRequestBidsMsg]))
    ∧ (∀ es, es ≠ [] → d.bidder.makeRequests br.bidRequest d.reqInfoGpc = ([], es) →
      requestBid d br delivered = ([], es)) := by
  constructor
  · intro hmk
    simp [requestBid, hreject, hmk, himp]
  · intro es hes hmk
    simp [requestBid, hreject, hmk, himp, hes]

/-- C8 witness (the zero-requests, zero-errors half). -/
theorem C8_zero_requests_witness :
    testBidderRequest.bidRequest.imp ≠ []
    ∧ testDepsNoReq.hookExec testBidderRequest.bidRequest testBidderRequest.bidderName = none
    ∧ requestBid testDepsNoReq testBidderRequest []
        = ([], [.failedToRequestBids failedToRequestBidsMsg]) := by
  refine ⟨by decide, rfl, ?_⟩
  exact (C8_zero_requests testDepsNoReq testBidderRequest [] (by decide) rfl).1 rfl

/-- C3: the emitted http-call debug record never contains the Authorization
    header: adding an Authorization header (under any spelling that
    canonicalizes to it, with any value) or deleting it leaves the emitted
    record identical, and the scrubbed headers hold no Authorization entry. -/
theorem C3_authorization_scrubbed (resp : Option ResponseData) (err : Option BidderError)
    (rd : RequestData) (key val : String)
    (hk : canonicalHeaderKey key = "Authorization") :
    makeExt { request := some { rd with headers := rd.headers.add key val },
              response := resp, err := err }
      = makeExt { request := some rd, response := resp, err := err }
    ∧ makeExt { request := some { rd with headers := rd.headers.del "Authorization" },
                response := resp, err := err }
      = makeExt { request := some rd, response := resp, err := err }
    ∧ Header.values (filterHeader rd.headers) "Authorization" = [] := by
  have hA : authorizationHeader = "Authorization" := by decide
  have h1 : filterHeader (rd.headers.add key val) = filterHeader rd.headers := by
    unfold filterHeader
    exact del_add_same _ _ _ _ (by rw [hk, hA]; decide)
  have h2 : filterHeader (rd.headers.del "Authorization") = filterHeader rd.headers := by
    unfold filterHeader
    exact del_del_same _ _ _ (by rw [hA])
  refine ⟨?_, ?_, ?_⟩
  · simp only [makeExt]
    rw [h1]
  · simp only [makeExt]
    rw [h2]
  · unfold filterHeader
    rw [hA]
    exact values_del _ _

/-- C3 witness: a lowercase spelling of Authorization with a bearer token on
    concrete headers. -/
theorem C3_authorization_scrubbed_witness :
    canonicalHeaderKey "authorization" = "Authorization"
    ∧ makeExt { request := some { testRequestDataAuth with
                  headers := testRequestDataAuth.headers.add "authorization" "Bearer x" },
                response := none, err := none }
        = makeExt { request := some testRequestDataAuth, response := none, err := none }
    ∧ Header.values (filterHeader testRequestDataAuth.headers) "Authorization" = [] := by
  have h := C3_authorization_scrubbed none none testRequestDataAuth "authorization" "Bearer x"
    (by decide)
  exact ⟨by decide, h.1, h.2.2⟩

/-- C5: prepareStoredResponse emits the sentinel call (POST, empty URI, nil
    error, 200 response carrying the stored bytes, sentinel request body),
    splitting that body on the sentinel recovers the impression id (provided
    the id does not itself contain the sentinel), and the per-bid substitution
    sets the bid's ImpID to that id exactly when the replaceimpid flag is
    true. -/
theorem C5_stored_response_roundtrip (impId bytes : String)
    (impReplace : List (String × Bool)) (tb : TypedBid) (b : Bid)
    (hni : containsSeq ImpIdReqBody.data impId.data = false)
    (hb : tb.bid = some b) :
    prepareStoredResponse impId bytes =
      { request := some { method := "POST", uri := "", body := ImpIdReqBody ++ impId, headers := [] },
        response := some { statusCode := 200, body := bytes, headers := [] }, err := none }
    ∧ storedImpIdOf (ImpIdReqBody ++ impId) = impId
    ∧ replaceOneImpId impReplace (prepareStoredResponse impId bytes) tb
        = (if lookupBool impReplace impId then { tb with bid := some { b with impID := impId } }
           else tb) := by
  refine ⟨rfl, storedImpIdOf_roundTrip impId hni, ?_⟩
  simp only [replaceOneImpId, prepareStoredResponse]
  rw [storedImpIdOf_roundTrip impId hni]
  simp only [if_true]
  by_cases hl : lookupBool impReplace impId
  · simp [hl, hb]
  · simp [hl]

/-- C5 witness: impression id imp-1 with replaceimpid true. -/
theorem C5_stored_response_roundtrip_witness :
    containsSeq ImpIdReqBody.data ("imp-1" : String).data = false
    ∧ replaceOneImpId [("imp-1", true)] (prepareStoredResponse "imp-1" "{}") testTypedBid
        = { testTypedBid with bid := some { testBid with impID := "imp-1" } } := by
  refine ⟨by decide, ?_⟩
  have h := (C5_stored_response_roundtrip "imp-1" "{}" [("imp-1", true)] testTypedBid testBid
    (by decide) rfl).2.2
  rw [h]
  simp [lookupBool]

/-- C7 counterexample: at a concrete call answered with status 500 and body
    "oops", the httpCallInfo carries a BadServerResponse error and retains the
    response, but the emitted debug record does NOT surface the response:
    its responseBody is empty and its status is 0, refuting the claim's
    "surfaced in the emitted http-call debug record". -/
theorem C7_counterexample :
    (doRequestImpl testEnv500 testCfg testRequestData).err
        = some (.badServerResponse
            "Server responded with failure status: 500. Set request.test = 1 for debugging info.")
    ∧ (doRequestImpl testEnv500 testCfg testRequestData).response
        = some { statusCode := 500, body := "oops", headers := [] }
    ∧ (makeExt (doRequestImpl testEnv500 testCfg testRequestData)).responseBody = ""
    ∧ (makeExt (doRequestImpl testEnv500 testCfg testRequestData)).status = 0 := by
  refine ⟨rfl, rfl, rfl, rfl⟩

/-- C7 amended: a completed call with status outside [200,400) carries a
    BadServerResponse error and the response is retained for debug in the
    httpCallInfo; the emitted debug record still shows the request side but
    omits the response body and status, because makeExt copies them only when
    the call has no error. -/
theorem C7_amended_bad_status (env : Env) (cfg : BidderAdapterConfig) (req : RequestData)
    (status : Int) (body : String) (hdrs : Header)
    (hgz : toUpperStr cfg.endpointCompression ≠ "GZIP")
    (hnew : env.newRequestErr req.method req.uri = none)
    (htr : ∀ rd, env.transport rd = TransportResult.ok status body hdrs)
    (hstatus : status < 200 ∨ status ≥ 400) :
    (doRequestImpl env cfg req).err
        = some (.badServerResponse ("Server responded with failure status: " ++ toString status ++
            ". Set request.test = 1 for debugging info."))
    ∧ (doRequestImpl env cfg req).response
        = some { statusCode := status, body := body, headers := hdrs }
    ∧ (makeExt (doRequestImpl env cfg req)).responseBody = ""
    ∧ (makeExt (doRequestImpl env cfg req)).status = 0
    ∧ (makeExt (doRequestImpl env cfg req)).uri = req.uri
    ∧ (makeExt (doRequestImpl env cfg req)).requestBody = req.body := by
  have hres : doRequestImpl env cfg req =
      { request := some req,
        response := some { statusCode := status, body := body, headers := hdrs },
        err := some (.badServerResponse ("Server responded with failure status: " ++
          toString status ++ ". Set request.test = 1 for debugging info.")) } := by
    simp only [doRequestImpl, hgz, if_neg, if_false, hnew, htr]
    simp [hstatus]
  rw [hres]
  exact ⟨rfl, rfl, rfl, rfl, rfl, rfl⟩

/-- C7 amended witness. -/
theorem C7_amended_bad_status_witness :
    ((500 : Int) < 200 ∨ (500 : Int) ≥ 400)
    ∧ (doRequestImpl testEnv500 testCfg testRequestData).response
        = some { statusCode := 500, body := "oops", headers := [] }
    ∧ (makeExt (doRequestImpl testEnv500 testCfg testRequestData)).responseBody = "" := by
  have h := C7_amended_bad_status testEnv500 testCfg testRequestData 500 "oops" []
    (by decide) rfl (fun _ => rfl) (Or.inr (by norm_num))
  exact ⟨Or.inr (by norm_num), h.2.1, h.2.2.1⟩

/-- C4: per received call result, the http-call debug record is appended to
    the primary seat iff the debug-override header allows it or both the
    account and the bidder adapter allow debug; when the account allows debug,
    the adapter does not, and there is no header override, nothing is recorded
    and exactly one BidderLevelDebugDisabled warning with message
    "debug turned off for bidder" is appended to the errors. -/
theorem C4_debug_gating (ctx : RunnerCtx) (st : LoopState) (info : HttpCallInfo)
    (sb0 : pbsOrtbSeatBid) (hprim : lookupSeat st.seatBidMap ctx.bidderName = some sb0) :
    (seatHttpCalls (debugGate ctx st info).seatBidMap ctx.bidderName
        = seatHttpCalls st.seatBidMap ctx.bidderName ++ [makeExt info]
      ↔ (ctx.opts.headerDebugAllowed = true
         ∨ (ctx.opts.accountDebugAllowed = true ∧ ctx.cfg.debugInfoAllow = true)))
    ∧ (ctx.opts.headerDebugAllowed = false → ctx.opts.accountDebugAllowed = true →
       ctx.cfg.debugInfoAllow = false →
       (debugGate ctx st info).seatBidMap = st.seatBidMap
       ∧ (debugGate ctx st info).errs
           = st.errs ++ [BidderError.warning WarningCode.bidderLevelDebugDisabled
               "debug turned off for bidder"]) := by
  have happend : seatHttpCalls
      (updateSeat st.seatBidMap ctx.bidderName
        (fun sb => { sb with httpCalls := sb.httpCalls ++ [makeExt info] })) ctx.bidderName
      = seatHttpCalls st.seatBidMap ctx.bidderName ++ [makeExt info] := by
    unfold seatHttpCalls
    rw [lookupSeat_updateSeat, if_pos rfl, hprim]
    simp
  have hne : ¬(seatHttpCalls st.seatBidMap ctx.bidderName
      = seatHttpCalls st.seatBidMap ctx.bidderName ++ [makeExt info]) := by
    intro hcontra
    have := congrArg List.length hcontra
    simp at this
  constructor
  · unfold debugGate
    split_ifs with hH hA hD
    · simp only [happend]
      simp [hH]
    · simp only [happend]
      simp [hA, hD]
    · exact iff_of_false hne (by simp [hH, hD])
    · exact iff_of_false hne (by simp [hH, hA])
  · intro hH hA hD
    unfold debugGate
    rw [if_neg (by simp [hH]), if_pos hA, if_neg (by simp [hD])]
    exact ⟨rfl, rfl⟩

/-- C4 witness: account debug allowed, adapter debug disallowed, no header
    override — the warning is emitted and nothing is recorded. -/
theorem C4_debug_gating_witness :
    lookupSeat testLoopState.seatBidMap testRunnerCtxNoDebug.bidderName
        = some { bids := [], currency := "USD", httpCalls := [], seat := "appnexus" }
    ∧ (debugGate testRunnerCtxNoDebug testLoopState testStoredInfo).seatBidMap
        = testLoopState.seatBidMap
    ∧ (debugGate testRunnerCtxNoDebug testLoopState testStoredInfo).errs
        = testLoopState.errs ++ [BidderError.warning WarningCode.bidderLevelDebugDisabled
            "debug turned off for bidder"] := by
  have h := (C4_debug_gating testRunnerCtxNoDebug testLoopState testStoredInfo
    { bids := [], currency := "USD", httpCalls := [], seat := "appnexus" } (by decide)).2
    rfl rfl rfl
  exact ⟨by decide, h.1, h.2⟩

/-- C1: every bid accepted from a response with a conversion rate is appended
    under its claimed seat with final price
    rawPrice × adjustmentFactor × conversionRate — the adjustment factor keyed
    by the claimed (alternate) seat, else the primary bidder, else 1.0 —
    and with originalBidCPM the raw pre-adjustment price and originalBidCur
    the response currency. (`processBid` is the per-bid step the drain loop
    folds when a conversion rate was found; `ctx.conversionRate` and
    `ctx.respCurrency` are instantiated with that rate and the response
    currency by `processBidderResponse`.) -/
theorem C1_accepted_bid_price (ctx : BidLoopCtx) (st : LoopState) (tb : TypedBid) (b : Bid)
    (hb : tb.bid = some b)
    (hv : (ctx.isValidBidderCode ctx.primary (claimedSeatOf ctx.primary tb)).1 = true) :
    seatBids (processBid ctx st tb).seatBidMap (claimedSeatOf ctx.primary tb)
      = seatBids st.seatBidMap (claimedSeatOf ctx.primary tb)
        ++ [{ bid := some { b with price :=
                b.price * adjustmentFactorOf ctx.bidAdjustments ctx.primary (claimedSeatOf ctx.primary tb)
                  * ctx.conversionRate },
              bidMeta := some { tb.bidMeta.getD {} with adapterCode := ctx.primary },
              bidType := tb.bidType, bidVideo := tb.bidVideo, dealPriority := tb.dealPriority,
              originalBidCPM := b.price, originalBidCur := ctx.respCurrency }] := by
  rw [processBid_seatBids]
  simp [contribOf, hv, hb]

/-- C1 witness: price 2.0, alternate-seat adjustment 1.5, rate 1.1 — the
    appended bid's price is 3.3, originalBidCPM 2, originalBidCur EUR. -/
theorem C1_accepted_bid_price_witness :
    testTypedBid.bid = some testBid
    ∧ (testBidLoopCtx.isValidBidderCode testBidLoopCtx.primary
        (claimedSeatOf testBidLoopCtx.primary testTypedBid)).1 = true
    ∧ seatBids (processBid testBidLoopCtx testLoopState testTypedBid).seatBidMap
        (claimedSeatOf testBidLoopCtx.primary testTypedBid)
      = [{ bid := some { testBid with price := (33 : ℚ)/10 },
           bidMeta := some { adapterCode := "appnexus" },
           bidType := BidType.banner, bidVideo := none, dealPriority := 0,
           originalBidCPM := 2, originalBidCur := "EUR" }] := by
  refine ⟨rfl, rfl, ?_⟩
  rw [C1_accepted_bid_price testBidLoopCtx testLoopState testTypedBid testBid rfl rfl]
  simp [seatBids, lookupSeat, testLoopState, initialLoopState, testBidderRequest, testBidLoopCtx,
    testTypedBid, testBid, claimedSeatOf, adjustmentFactorOf, lookupAdj]
  norm_num

/-- C10: implicit USD defaulting — an empty bid-response currency reads as
    USD; an empty request currency list becomes ["USD"] (persisting in the
    shared bid request); every seat-bid map entry is initialized with
    currency USD; and when both sides omit currency, the response is
    converted through a USD→USD rate lookup rather than dropped — USD is
    adopted as the primary seat currency. -/
theorem C10_usd_defaulting (ctx : RunnerCtx) (st : LoopState) (info : HttpCallInfo)
    (resp : BidderResponse) (moreErrs : List BidderError) (r : ℚ) (sb0 : pbsOrtbSeatBid)
    (br : BidderRequest) (errs0 : List BidderError)
    (he : info.err = none)
    (hmb : ctx.bidder.makeBids st.bidRequest info.request info.response = (some resp, moreErrs))
    (hc : resp.currency = "")
    (hcur : st.bidRequest.cur = [])
    (hrate : ctx.conversions "USD" "USD" = Except.ok r)
    (hprim : lookupSeat st.seatBidMap ctx.bidderName = some sb0) :
    normalizeResponseCurrency resp = { resp with currency := "USD" }
    ∧ normalizeRequestCur st.bidRequest = { st.bidRequest with cur := ["USD"] }
    ∧ (∀ p ∈ (initialLoopState br errs0).seatBidMap, p.2.currency = "USD")
    ∧ (processHttpCallResult ctx st info).bidRequest.cur = ["USD"]
    ∧ ∃ sb, lookupSeat (processHttpCallResult ctx st info).seatBidMap ctx.bidderName = some sb
        ∧ sb.currency = "USD" := by
  have hnc : (normalizeResponseCurrency resp).currency = "USD" := by
    simp [normalizeResponseCurrency, hc, defaultCurrency]
  have hcur2 : (normalizeRequestCur st.bidRequest).cur = ["USD"] := by
    simp [normalizeRequestCur, hcur, defaultCurrency]
  rw [processHttpCallResult_ok ctx st info resp moreErrs he hmb]
  set stG : LoopState :=
    { debugGate ctx st info with errs := (debugGate ctx st info).errs ++ moreErrs } with hstG
  have hbrG : stG.bidRequest = st.bidRequest := debugGate_bidRequest ctx st info
  obtain ⟨sbg, hg, -, -⟩ := debugGate_lookup_pres ctx st info ctx.bidderName sb0 hprim
  have hfound := processBidderResponse_found ctx stG info resp [] "USD" [] r
    (by rw [hbrG, hcur2]; rfl)
    (fun c' hm => absurd hm (List.not_mem_nil c'))
    (by rw [hnc]; exact hrate)
  rw [hfound]
  refine ⟨?_, ?_, ?_, ?_, ?_⟩
  · simp [normalizeResponseCurrency, hc, defaultCurrency]
  · simp [normalizeRequestCur, hcur, defaultCurrency]
  · intro p hp
    have hpp : p = (br.bidderName,
        { bids := [], currency := defaultCurrency, httpCalls := [], seat := br.bidderName }) := by
      simpa [initialLoopState] using hp
    rw [hpp]
    rfl
  · rw [foundState_bidRequest, hbrG, hcur2]
  · exact foundState_lookup_primary ctx stG info resp "USD" r sbg hg

/-- C10 witness: both currencies omitted — the call is processed via the
    USD→USD rate and USD ends up everywhere. -/
theorem C10_usd_defaulting_witness :
    testResponseNoCur.currency = ""
    ∧ testLoopStateNoCur.bidRequest.cur = []
    ∧ testConvUSD "USD" "USD" = Except.ok 1
    ∧ (processHttpCallResult testRunnerCtxUSD testLoopStateNoCur testStoredInfo).bidRequest.cur
        = ["USD"]
    ∧ ∃ sb, lookupSeat (processHttpCallResult testRunnerCtxUSD testLoopStateNoCur
        testStoredInfo).seatBidMap "appnexus" = some sb ∧ sb.currency = "USD" := by
  have h := C10_usd_defaulting testRunnerCtxUSD testLoopStateNoCur testStoredInfo
    testResponseNoCur [] 1
    { bids := [], currency := "USD", httpCalls := [], seat := "appnexus" } testBidderRequest []
    rfl rfl rfl rfl rfl (by decide)
  exact ⟨rfl, rfl, rfl, h.2.2.2.1, h.2.2.2.2⟩

end Prebid
